import Mathlib

/-!
Verification of the host-assisted clone controller and the upload proxy of the
containerized-data-importer repository.  The Go sources under
`pkg/controller/clone-controller.go` and the upload-proxy file are shallowly
embedded below: Kubernetes objects become plain structures, the cluster becomes
an explicit state record, API mutations become an effect list, and the
reconciler / HTTP handlers become pure functions over those.
-/

/-! ## Association lists (Go `map[string]string`) -/

/-- Lookup in an association list; mirrors reading a Go map with `v, ok := m[k]`. -/
def lookupA (l : List (String × String)) (k : String) : Option String :=
  match l with
  | [] => none
  | (k', v) :: rest => if k' = k then some v else lookupA rest k

/-- Go map read `m[k]` with the zero-value default for a missing key. -/
def lookupD (l : List (String × String)) (k : String) : String :=
  match lookupA l k with
  | none => ""
  | some v => v

/-- Go map write `m[k] = v`: replace the binding in place or append it. -/
def setA (l : List (String × String)) (k v : String) : List (String × String) :=
  match l with
  | [] => [(k, v)]
  | (k', v') :: rest => if k' = k then (k, v) :: rest else (k', v') :: setA rest k v

/-! ## Constants from `clone-controller.go` -/

def AnnCloneRequest : String := "k8s.io/CloneRequest"

def AnnCloneOf : String := "k8s.io/CloneOf"

def AnnCloneToken : String := "cdi.kubevirt.io/storage.clone.token"

def CloneUniqueID : String := "cdi.kubevirt.io/storage.clone.cloneUniqeId"

def cloneSourcePodFinalizer : String := "cdi.kubevirt.io/cloneSource"

def CloneSucceededPVC : String := "CloneSucceeded"

/-- Modelled from the spec: `AnnPodReady` is declared in controller utility files
not present in src; the spec's annotation vocabulary names the `PodReady` key
(value `"true"` when the target upload server is ready). -/
def AnnPodReady : String := "cdi.kubevirt.io/storage.pod.ready"

/-- Modelled from the spec: `AnnPodPhase` is declared in controller utility files
not present in src; the spec's annotation vocabulary names the `PodPhase` key
(latest phase of the target's upload server pod). -/
def AnnPodPhase : String := "cdi.kubevirt.io/storage.pod.phase"

/-- Modelled from the spec: `AnnPodRestarts` is declared in controller utility
files not present in src; the spec's annotation vocabulary names the
`PodRestarts` key (high-water-mark of the source pod's restart count). -/
def AnnPodRestarts : String := "cdi.kubevirt.io/storage.pod.restarts"

/-- Modelled from the spec: `AnnUploadClientName` is declared in the upload
controller file not present in src; the spec's annotation vocabulary names the
`UploadClientName` key (identity embedded in the worker's client cert). -/
def AnnUploadClientName : String := "cdi.kubevirt.io/uploadClientName"

/-! ## Data model -/

/-- A persistent-volume mode.  The orchestrator API defines exactly the values
`Block` and `Filesystem` for this string-typed field. -/
inductive VolumeMode : Type
  | Block : VolumeMode
  | Filesystem : VolumeMode
deriving DecidableEq

/-- The string form used by Go `%s` formatting of a volume mode. -/
def VolumeMode.str : VolumeMode → String
  | VolumeMode.Block => "Block"
  | VolumeMode.Filesystem => "Filesystem"

/-- The fields of a PVC spec read by `ValidateCanCloneSourceAndTargetSpec`:
the storage resource request in bytes (`Resources.Requests[storage].Value()`,
zero when absent) and the optional volume mode pointer. -/
structure PVCSpec : Type where
  storageRequest : Int
  volumeMode : Option VolumeMode
deriving DecidableEq

/-- A persistent volume claim as read by the clone controller. -/
structure PVC : Type where
  ns : String
  name : String
  uid : String
  anns : List (String × String)
  finalizers : List String
  spec : PVCSpec
deriving DecidableEq

/-- A container status; only the restart count is read by the controller. -/
structure ContainerStatus : Type where
  restartCount : Nat
deriving DecidableEq

/-- A pod as read by the clone controller.  `containerStatuses` is an `Option`
to mirror the Go distinction between a nil slice (`none`) and a present,
possibly empty slice (`some l`); `deletionTimestamp` is `some _` when the pod
is terminating; `phase` is the string-typed pod phase. -/
structure Pod : Type where
  ns : String
  name : String
  labels : List (String × String)
  phase : String
  deletionTimestamp : Option Nat
  containerStatuses : Option (List ContainerStatus)
deriving DecidableEq

/-! ## Token model

The `pkg/token` package is not present in src; its data shape is modelled from
the spec: a claims payload with `operation ∈ {upload, clone, …}`, `name`,
`namespace`, `resource {group, version, resource}`, and a string→string
`params` map. -/

/-- Modelled from the spec: the token operation field, with the two constants
`token.OperationClone` / `token.OperationUpload` referenced by src, plus other
possible operation strings. -/
inductive TokenOperation : Type
  | clone : TokenOperation
  | upload : TokenOperation
  | other : String → TokenOperation
deriving DecidableEq

/-- Modelled from the spec: the `resource {group, version, resource}` triple of
a token payload. -/
structure TokenResource : Type where
  group : String
  version : String
  resource : String
deriving DecidableEq

/-- Modelled from the spec: the claims payload returned by a successful
`token.Validator.Validate`. -/
structure TokenData : Type where
  operation : TokenOperation
  name : String
  ns : String
  resource : TokenResource
  params : List (String × String)
deriving DecidableEq

/-- A token validator: `Validate` either returns the claims payload or an
opaque error (signature / issuer / time-window failures). -/
def TokenValidator : Type := String → Except String TokenData

/-! ## Pure validators from `clone-controller.go` -/

def errCloneTokenMissing : String := "clone token missing"

def errInvalidToken : String := "invalid token"

def resourcePVCs : String := "persistentvolumeclaims"

def paramTargetNamespace : String := "targetNamespace"

def paramTargetName : String := "targetName"

/-- Embedding of `validateCloneToken`: read the clone-token annotation from the
target, run the validator, then require the six bindings; any mismatch yields
the invalid-token error. -/
def validateCloneToken (validate : TokenValidator) (source target : PVC) :
    Except String Unit :=
  match lookupA target.anns AnnCloneToken with
  | none => Except.error errCloneTokenMissing
  | some tok =>
    match validate tok with
    | Except.error e => Except.error ("error verifying token: " ++ e)
    | Except.ok tokenData =>
      if tokenData.operation ≠ TokenOperation.clone
          ∨ tokenData.name ≠ source.name
          ∨ tokenData.ns ≠ source.ns
          ∨ tokenData.resource.resource ≠ resourcePVCs
          ∨ lookupD tokenData.params paramTargetNamespace ≠ target.ns
          ∨ lookupD tokenData.params paramTargetName ≠ target.name
      then Except.error errInvalidToken
      else Except.ok ()

/-- Character-level split: `strings.Split` for a one-character separator.
`Split("", sep) = [""]`, and a trailing separator yields a final empty part. -/
def splitOnChar (sep : Char) : List Char → List (List Char)
  | [] => [[]]
  | c :: rest =>
    if c = sep then [] :: splitOnChar sep rest
    else
      match splitOnChar sep rest with
      | [] => [[c]]
      | g :: gs => (c :: g) :: gs

/-- Embedding of `strings.Split(ann, "/")`. -/
def goSplitSlash (s : String) : List String :=
  (splitOnChar '/' s.toList).map String.mk

/-- Embedding of `ParseCloneRequestAnnotation`: read the clone-request
annotation and split it on `/`; any split arity other than two leaves the
named results at their zero values with `exists = false`. -/
def parseCloneRequestAnn (pvc : PVC) : Bool × String × String :=
  match lookupA pvc.anns AnnCloneRequest with
  | none => (false, "", "")
  | some ann =>
    match goSplitSlash ann with
    | [ns, name] => (true, ns, name)
    | _ => (false, "", "")

def errTargetSmaller : String :=
  "target resources requests storage size is smaller than the source"

/-- The volume mode used for comparison: `Block` only when the pointer is
non-nil and equal to `Block`, otherwise `Filesystem`. -/
def effectiveVolumeMode : Option VolumeMode → VolumeMode
  | some VolumeMode.Block => VolumeMode.Block
  | _ => VolumeMode.Filesystem

/-- The mode-mismatch error message produced by `fmt.Errorf`. -/
def volumeModeMismatchMsg (s t : VolumeMode) : String :=
  "source volumeMode (" ++ s.str ++ ") and target volumeMode (" ++ t.str
    ++ ") do not match"

/-- Embedding of `ValidateCanCloneSourceAndTargetSpec`: target storage request
must be at least the source's, and the effective volume modes must agree. -/
def ValidateCanCloneSourceAndTargetSpec (sourceSpec targetSpec : PVCSpec) :
    Except String Unit :=
  if sourceSpec.storageRequest > targetSpec.storageRequest then
    Except.error errTargetSmaller
  else if effectiveVolumeMode sourceSpec.volumeMode
      ≠ effectiveVolumeMode targetSpec.volumeMode then
    Except.error (volumeModeMismatchMsg (effectiveVolumeMode sourceSpec.volumeMode)
      (effectiveVolumeMode targetSpec.volumeMode))
  else
    Except.ok ()

def sourcePodSuffix : String := "-source-pod"

/-- Embedding of `getCloneSourcePodName`. -/
def getCloneSourcePodName (targetPvc : PVC) : String :=
  targetPvc.uid ++ sourcePodSuffix

/-- Whether a pod matches the clone-source label selector for a target PVC in
the given source namespace: it lives in that namespace and carries the label
`CloneUniqueID = <uid>-source-pod`. -/
def matchesCloneSource (sourceNamespace : String) (pvc : PVC) (p : Pod) : Bool :=
  p.ns == sourceNamespace
    && lookupA p.labels CloneUniqueID == some (getCloneSourcePodName pvc)

def errMultipleSourcePods : String := "multiple source pods found for clone PVC"

/-- Embedding of `findCloneSourcePod`: list the pods of the source namespace
carrying the unique-id label; more than one is a hard error, zero means the
pod must still be created, one is returned. -/
def findCloneSourcePod (pods : List Pod) (pvc : PVC) : Except String (Option Pod) :=
  match parseCloneRequestAnn pvc with
  | (false, _, _) => Except.ok none
  | (true, sourceNamespace, _) =>
    if (pods.filter (matchesCloneSource sourceNamespace pvc)).length > 1 then
      Except.error errMultipleSourcePods
    else
      match pods.filter (matchesCloneSource sourceNamespace pvc) with
      | [] => Except.ok none
      | p :: _ => Except.ok (some p)

/-! ## Go standard-library helpers (`strconv`, `regexp`) -/

def trueStrings : List String := ["1", "t", "T", "true", "TRUE", "True"]

def falseStrings : List String := ["0", "f", "F", "false", "FALSE", "False"]

/-- Embedding of `strconv.ParseBool`. -/
def goParseBool (s : String) : Option Bool :=
  if s ∈ trueStrings then some true
  else if s ∈ falseStrings then some false
  else none

/-- A `strconv.ParseBool` call whose error is discarded: the boolean zero value
`false` results on a parse failure. -/
def goParseBoolD (s : String) : Bool :=
  (goParseBool s).getD false

def digitVal (c : Char) : Nat := c.toNat - 48

def parseNatCore (cs : List Char) : Nat :=
  cs.foldl (fun a c => 10 * a + digitVal c) 0

/-- Decimal digits of `n`, most significant first; fuel-based so that it
reduces definitionally (any `fuel ≥ n` gives the digits). -/
def natCharsAux : Nat → Nat → List Char
  | 0, _ => []
  | fuel + 1, n =>
    if n = 0 then []
    else natCharsAux fuel (n / 10) ++ [Char.ofNat (48 + n % 10)]

def natRepr (n : Nat) : String :=
  if n = 0 then "0" else String.mk (natCharsAux (n + 1) n)

/-- Embedding of `strconv.Itoa`. -/
def goItoa (i : Int) : String :=
  if i < 0 then "-" ++ natRepr i.natAbs else natRepr i.natAbs

/-- The digits-with-sign part of `strconv.Atoi`: at least one character, all
decimal digits. -/
def goAtoiDigits (neg : Bool) (ds : List Char) : Int :=
  if ds ≠ [] ∧ ds.all Char.isDigit then
    if neg then -(parseNatCore ds : Int) else (parseNatCore ds : Int)
  else 0

/-- Embedding of a `strconv.Atoi` call whose error is discarded: an optional
sign followed by at least one digit parses, anything else yields the integer
zero value.  (Int64 overflow clamping is not modelled; the counts involved are
small.) -/
def goAtoi (s : String) : Int :=
  match s.toList with
  | [] => 0
  | c :: rest =>
    if c = '+' then goAtoiDigits false rest
    else if c = '-' then goAtoiDigits true rest
    else goAtoiDigits false (c :: rest)

/-- Go regexp `\s`: the five ASCII whitespace characters. -/
def goIsSpace (c : Char) : Bool :=
  c == ' ' || c == '\t' || c == '\n' || c == '\x0c' || c == '\r'

/-- The character class `[A-Za-z0-9\-\._~\+\/]` of the bearer-token regex. -/
def isTokenChar (c : Char) : Bool :=
  c.isAlpha || c.isDigit || c == '-' || c == '.' || c == '_' || c == '~'
    || c == '+' || c == '/'

def bearerChars : List Char := ['b', 'e', 'a', 'r', 'e', 'r']

/-- Embedding of `authHeaderMatcher.FindStringSubmatch` against the anchored
regex `(?i)^Bearer\s+([A-Za-z0-9\-\._~\+\/]+)$`: six characters spelling
`Bearer` case-insensitively, one or more whitespace characters, then the
captured non-empty run of token characters reaching the end.  The whitespace
class and the token class are disjoint, so the decomposition is the maximal
whitespace run. -/
def matchAuthHeader (s : String) : Option String :=
  let cs := s.toList
  let pre := cs.take 6
  let rest := cs.drop 6
  if pre.map Char.toLower = bearerChars then
    let ws := rest.takeWhile goIsSpace
    let tok := rest.dropWhile goIsSpace
    if ws ≠ [] ∧ tok ≠ [] ∧ tok.all isTokenChar then some (String.mk tok)
    else none
  else none

/-! ## Upload proxy (`uploadproxy` file) -/

/-- The result of one `PersistentVolumeClaims(ns).Get(name)` call as seen by
the readiness poll. -/
inductive GetRes : Type
  | notFound : GetRes
  | apiErr : String → GetRes
  | found : PVC → GetRes
deriving DecidableEq

def phaseSucceeded : String := "Succeeded"

def phaseRunning : String := "Running"

/-- The error returned by `wait.PollImmediate` on timeout. -/
def errWaitTimeout : String := "timed out waiting for the condition"

/-- One execution of the poll condition closure inside `uploadReady`: a
not-found PVC or a `Succeeded` pod-phase annotation aborts with an error; the
poll continues or succeeds according to the Go-parsed `PodReady` annotation
(parse errors discarded, defaulting to `false`). -/
def pollOnce (pvcName : String) (g : GetRes) : Except String Bool :=
  match g with
  | GetRes.notFound =>
    Except.error ("rejecting Upload Request for PVC " ++ pvcName
      ++ " that doesn't exist")
  | GetRes.apiErr e => Except.error e
  | GetRes.found pvc =>
    if lookupD pvc.anns AnnPodPhase == phaseSucceeded then
      Except.error ("rejecting Upload Request for PVC " ++ pvcName
        ++ " that already finished uploading")
    else
      Except.ok (goParseBoolD (lookupD pvc.anns AnnPodReady))

/-- The `wait.PollImmediate` loop: evaluate the condition on successive
observations until it succeeds, aborts with an error, or the attempt budget is
exhausted (the timeout error). -/
def pollLoop (pvcName : String) (states : Nat → GetRes) : Nat → Nat → Except String Unit
  | _, 0 => Except.error errWaitTimeout
  | i, fuel + 1 =>
    match pollOnce pvcName (states i) with
    | Except.error e => Except.error e
    | Except.ok true => Except.ok ()
    | Except.ok false => pollLoop pvcName states (i + 1) fuel

/-- The attempt budget of `wait.PollImmediate(1s, 10s, ...)`: one immediate
invocation plus one per one-second tick across the ten-second window. -/
def pollAttempts : Nat := 11

/-- Embedding of `uploadReady`: poll the PVC observations from time 0. -/
def uploadReady (states : Nat → GetRes) (pvcName : String) : Except String Unit :=
  pollLoop pvcName states 0 pollAttempts

/-- What `handleUploadRequest` does with a request: either it writes a final
HTTP status itself, or it hands the request to `proxyUploadRequest` for the
named namespace/PVC. -/
inductive ProxyHandlerResult : Type
  | status : Nat → ProxyHandlerResult
  | proxied : String → String → ProxyHandlerResult
deriving DecidableEq

/-- Embedding of `handleUploadRequest`.  `pvcStates name ns` gives the
time-indexed observations of the PVC `ns/name` used by the readiness poll;
`authHeader` is the `Authorization` header (`""` when absent). -/
def handleUploadRequest (validate : TokenValidator)
    (pvcStates : String → String → Nat → GetRes) (authHeader : String) :
    ProxyHandlerResult :=
  if authHeader = "" then ProxyHandlerResult.status 400
  else
    match matchAuthHeader authHeader with
    | none => ProxyHandlerResult.status 400
    | some tok =>
      match validate tok with
      | Except.error _ => ProxyHandlerResult.status 401
      | Except.ok tokenData =>
        if tokenData.operation ≠ TokenOperation.upload
            ∨ tokenData.name = ""
            ∨ tokenData.ns = ""
            ∨ tokenData.resource.resource ≠ resourcePVCs
        then ProxyHandlerResult.status 400
        else
          match uploadReady (pvcStates tokenData.name tokenData.ns) tokenData.name with
          | Except.error _ => ProxyHandlerResult.status 503
          | Except.ok _ =>
            ProxyHandlerResult.proxied tokenData.ns tokenData.name

/-- The per-request mTLS client built by `clientCreator.CreateClient`. -/
structure HttpClient : Type where
  timeoutHours : Nat
deriving DecidableEq

structure UpstreamResp : Type where
  statusCode : Nat
deriving DecidableEq

/-- What `proxyUploadRequest` does after the readiness gate: either it writes
a status (the upstream's, or 500 on a transport error), or it dereferences a
nil pointer (a Go runtime panic). -/
inductive ProxyOutcome : Type
  | wroteStatus : Nat → ProxyOutcome
  | nilDereference : ProxyOutcome
deriving DecidableEq

/-- Embedding of `proxyUploadRequest`.  On a `CreateClient` error the code only
logs (`klog.Error`) and falls through with the nil `*http.Client`; the
subsequent `client.Do(req)` dereferences the nil receiver, a runtime panic, so
no HTTP status is written on that path. -/
def proxyUploadRequest (createClientRes : Except String HttpClient)
    (doReq : HttpClient → Except String UpstreamResp) : ProxyOutcome :=
  let client : Option HttpClient :=
    match createClientRes with
    | Except.ok c => some c
    | Except.error _ => none
  match client with
  | none => ProxyOutcome.nilDereference
  | some c =>
    match doReq c with
    | Except.error _ => ProxyOutcome.wroteStatus 500
    | Except.ok resp => ProxyOutcome.wroteStatus resp.statusCode

/-! ## Clone reconciler (`clone-controller.go`) -/

/-- The orchestrator state the reconciler reads and mutates. -/
structure Cluster : Type where
  pvcs : List PVC
  pods : List Pod
deriving DecidableEq

/-- A state-changing API call (or event emission) issued during a pass. -/
inductive Effect : Type
  | createPod : Pod → Effect
  | deletePod : String → String → Effect
  | updatePVC : PVC → Effect
  | event : String → Effect
deriving DecidableEq

/-- The reconciler's injected collaborators: the clone-token validator, the
client-cert generator, the server CA bundle fetcher and the default pod
resource-requirement lookup (each of the last three either succeeds or fails
with an error; the bytes they produce are not read by the control flow). -/
structure Env : Type where
  validate : TokenValidator
  makeClientCert : Except String Unit
  bundleBytes : Except String Unit
  resourceReq : Except String Unit

/-- `Client.Get` for a PVC by namespace and name. -/
def getPVC (c : Cluster) (ns name : String) : Option PVC :=
  c.pvcs.find? (fun q => q.ns == ns && q.name == name)

/-- `Client.Update` of a PVC: replace the stored object with the same key. -/
def putPVC (c : Cluster) (p : PVC) : Cluster :=
  { c with pvcs := c.pvcs.map (fun q => if q.ns == p.ns && q.name == p.name then p else q) }

/-- `Client.Delete` of a pod by namespace and name. -/
def removePod (c : Cluster) (ns name : String) : Cluster :=
  { c with pods := c.pods.filter (fun q => !(q.ns == ns && q.name == name)) }

/-- Modelled from the spec: `checkPVC` (controller utilities, not in src)
checks that a PVC carries the given annotation; the spec's relevance check is
"PVC is relevant iff it has `CloneRequest` and lacks `CloneOf`". -/
def checkPVC (pvc : PVC) (key : String) : Bool :=
  (lookupA pvc.anns key).isSome

/-- `metav1.HasAnnotation`: presence of the annotation key. -/
def hasAnn (pvc : PVC) (key : String) : Bool :=
  (lookupA pvc.anns key).isSome

/-- Embedding of `shouldReconcile`. -/
def shouldReconcile (pvc : PVC) : Bool :=
  checkPVC pvc AnnCloneRequest && !(hasAnn pvc AnnCloneOf)

/-- Embedding of `hasFinalizer`. -/
def hasFinalizer (pvc : PVC) (value : String) : Bool :=
  pvc.finalizers.contains value

/-- Embedding of `addFinalizer`. -/
def addFinalizer (pvc : PVC) (name : String) : PVC :=
  if hasFinalizer pvc name then pvc
  else { pvc with finalizers := pvc.finalizers ++ [name] }

/-- Embedding of `removeFinalizer`. -/
def removeFinalizer (pvc : PVC) (name : String) : PVC :=
  if !hasFinalizer pvc name then pvc
  else { pvc with finalizers := pvc.finalizers.filter (fun f => f != name) }

/-- Modelled from the spec: `podSucceededFromPVC` (controller utilities, not in
src) reads the target pod phase annotation; the spec reads "If the target's
upload pod already succeeded (per `PodPhase == Succeeded`)". -/
def podSucceededFromPVC (pvc : PVC) : Bool :=
  lookupD pvc.anns AnnPodPhase == phaseSucceeded

/-- Embedding of `waitTargetPodRunningOrSucceeded`: absent `PodReady` means not
ready; an unparsable value is an error; a parsed `false` falls back to the
pod-succeeded annotation check. -/
def waitTargetPodRunningOrSucceeded (pvc : PVC) : Except String Bool :=
  match lookupA pvc.anns AnnPodReady with
  | none => Except.ok false
  | some rs =>
    match goParseBool rs with
    | none => Except.error ("error parsing " ++ AnnPodReady ++ " annotation")
    | some ready =>
      if !ready then Except.ok (podSucceededFromPVC pvc) else Except.ok true

def errParsingCloneRequest : String := "error parsing clone request annotation"

def errGettingSourcePVC : String := "error getting clone source PVC"

/-- Embedding of `getCloneRequestSourcePVC`. -/
def getCloneRequestSourcePVC (c : Cluster) (pvc : PVC) : Except String PVC :=
  match parseCloneRequestAnn pvc with
  | (false, _, _) => Except.error errParsingCloneRequest
  | (true, ns, name) =>
    match getPVC c ns name with
    | none => Except.error errGettingSourcePVC
    | some s => Except.ok s

/-- Embedding of `validateSourceAndTarget`: fetch the source PVC, check the
clone token, then check spec compatibility. -/
def validateSourceAndTarget (env : Env) (c : Cluster) (targetPvc : PVC) :
    Except String Unit :=
  match getCloneRequestSourcePVC c targetPvc with
  | Except.error e => Except.error e
  | Except.ok sourcePvc =>
    match validateCloneToken env.validate sourcePvc targetPvc with
    | Except.error e => Except.error e
    | Except.ok _ => ValidateCanCloneSourceAndTargetSpec sourcePvc.spec targetPvc.spec

/-- Modelled from the spec: label keys and values from the `common` package
(not in src) attached by `MakeCloneSourcePodSpec`; their exact strings are not
observable by any claim. -/
def commonCDILabelKey : String := "app"

def commonCDILabelValue : String := "containerized-data-importer"

def commonCDIComponentLabel : String := "cdi.kubevirt.io"

def commonClonerSourcePodName : String := "cdi-clone-source"

def commonPrometheusLabel : String := "prometheus.cdi.kubevirt.io"

/-- Embedding of `MakeCloneSourcePodSpec`, restricted to the fields the
reconciler later reads back: the pod lives in the source PVC's namespace, is
named `<uid>-source-pod`, and carries the `CloneUniqueID` lookup label.  A
freshly created pod has no status: empty phase, nil container statuses, no
deletion timestamp.  (Containers, env vars, volumes and security context are
not read by the control flow and are not modelled.) -/
def MakeCloneSourcePodSpec (sourcePvcNamespace : String) (targetPvc : PVC) : Pod :=
  { ns := sourcePvcNamespace
    name := getCloneSourcePodName targetPvc
    labels :=
      [(commonCDILabelKey, commonCDILabelValue),
       (commonCDIComponentLabel, commonClonerSourcePodName),
       (CloneUniqueID, getCloneSourcePodName targetPvc),
       (commonPrometheusLabel, "")]
    phase := ""
    deletionTimestamp := none
    containerStatuses := none }

def errBadCloneRequestAnn : String := "bad CloneRequest Annotation"

def errPodCreate : String := "source pod API create errored"

/-- Embedding of `CreateCloneSourcePod`: parse the clone-request annotation,
mint the client cert, fetch the CA bundle and the resource requirements, build
the pod spec and issue the API create (which fails if a pod with that
namespace and name already exists). -/
def CreateCloneSourcePod (env : Env) (c : Cluster) (pvc : PVC) :
    Except String (Cluster × Pod) :=
  match parseCloneRequestAnn pvc with
  | (false, _, _) => Except.error errBadCloneRequestAnn
  | (true, sourcePvcNamespace, _) =>
    match env.makeClientCert with
    | Except.error e => Except.error e
    | Except.ok _ =>
      match env.bundleBytes with
      | Except.error e => Except.error e
      | Except.ok _ =>
        match env.resourceReq with
        | Except.error e => Except.error e
        | Except.ok _ =>
          let pod := MakeCloneSourcePodSpec sourcePvcNamespace pvc
          if c.pods.any (fun q => q.ns == pod.ns && q.name == pod.name) then
            Except.error errPodCreate
          else
            Except.ok ({ c with pods := c.pods ++ [pod] }, pod)

def errMissingUploadClientName : String :=
  "PVC missing required uploadClientName annotation"

/-- Embedding of `reconcileSourcePod`: when no source pod exists, validate the
clone request, require the upload-client-name annotation, and create the pod. -/
def reconcileSourcePod (env : Env) (c : Cluster) (sourcePod : Option Pod)
    (pvc : PVC) : Except String (Cluster × List Effect) :=
  match sourcePod with
  | some _ => Except.ok (c, [])
  | none =>
    match validateSourceAndTarget env c pvc with
    | Except.error e => Except.error e
    | Except.ok _ =>
      match lookupA pvc.anns AnnUploadClientName with
      | none => Except.error errMissingUploadClientName
      | some _ =>
        match CreateCloneSourcePod env c pvc with
        | Except.error e => Except.error e
        | Except.ok (c1, pod) => Except.ok (c1, [Effect.createPod pod])

/-- The result of `updatePvcFromPod`: either the Go code panics indexing
`ContainerStatuses[0]` on a present-but-empty slice (after any event already
emitted), or it completes with the mutated PVC and whether it differs from the
deep-copied snapshot (in which case an update is persisted). -/
inductive UpdResult : Type
  | crashed : List Effect → UpdResult
  | done : List Effect → Bool → PVC → UpdResult
deriving DecidableEq

def trueStr : String := "true"

/-- Embedding of `updatePvcFromPod`: snapshot the PVC, idempotently add the
finalizer, set `CloneOf = "true"` (emitting a `CloneSucceeded` event) when the
target pod-phase annotation says Succeeded and the annotation is not already
`"true"`, raise the pod-restarts annotation to the first container's restart
count when greater, and report whether the PVC changed. -/
def updatePvcFromPod (sourcePod : Option Pod) (pvc0 : PVC) : UpdResult :=
  let pvc1 := addFinalizer pvc0 cloneSourcePodFinalizer
  let cloneOfHit := podSucceededFromPVC pvc1 && lookupD pvc1.anns AnnCloneOf != trueStr
  let pvc2 :=
    if cloneOfHit then { pvc1 with anns := setA pvc1.anns AnnCloneOf trueStr } else pvc1
  let evs := if cloneOfHit then [Effect.event CloneSucceededPVC] else []
  match sourcePod with
  | none => UpdResult.done evs (decide (pvc2 ≠ pvc0)) pvc2
  | some sp =>
    match sp.containerStatuses with
    | none => UpdResult.done evs (decide (pvc2 ≠ pvc0)) pvc2
    | some [] => UpdResult.crashed evs
    | some (c0 :: _) =>
      let annPodRestarts : Int := goAtoi (lookupD pvc2.anns AnnPodRestarts)
      let podRestarts : Int := (c0.restartCount : Int)
      let pvc3 :=
        if podRestarts > annPodRestarts then
          { pvc2 with anns := setA pvc2.anns AnnPodRestarts (goItoa podRestarts) }
        else pvc2
      UpdResult.done evs (decide (pvc3 ≠ pvc0)) pvc3

/-- Embedding of `cleanup`: find the source pod; a live, non-terminating pod
still running after a succeeded clone is waited for; otherwise it is deleted
and the finalizer-stripped PVC is persisted. -/
def cleanup (c : Cluster) (pvc : PVC) : Except String (Cluster × List Effect) :=
  match findCloneSourcePod c.pods pvc with
  | Except.error e => Except.error e
  | Except.ok (some pod) =>
    if pod.deletionTimestamp = none then
      if podSucceededFromPVC pvc && pod.phase == phaseRunning then
        Except.ok (c, [])
      else
        let c1 := removePod c pod.ns pod.name
        let pvcNew := removeFinalizer pvc cloneSourcePodFinalizer
        Except.ok (putPVC c1 pvcNew,
          [Effect.deletePod pod.ns pod.name, Effect.updatePVC pvcNew])
    else
      let pvcNew := removeFinalizer pvc cloneSourcePodFinalizer
      Except.ok (putPVC c pvcNew, [Effect.updatePVC pvcNew])
  | Except.ok none =>
    let pvcNew := removeFinalizer pvc cloneSourcePodFinalizer
    Except.ok (putPVC c pvcNew, [Effect.updatePVC pvcNew])

/-- How one `Reconcile` pass ended: a normal return (possibly after persisting
changes), an error return, or a Go runtime panic. -/
inductive Outcome : Type
  | ok : Outcome
  | err : String → Outcome
  | crashed : Outcome
deriving DecidableEq

/-- Embedding of `Reconcile` for one key: fetch the PVC (not-found is a
success), run cleanup when the PVC is no longer relevant but carries the
finalizer, gate on target readiness, find the source pod, create it when
missing, and update the PVC from the pod.  Returns the outcome, the resulting
cluster state and the list of state-changing effects issued. -/
def reconcile (env : Env) (c : Cluster) (ns name : String) :
    Outcome × Cluster × List Effect :=
  match getPVC c ns name with
  | none => (Outcome.ok, c, [])
  | some pvc =>
    if !shouldReconcile pvc then
      if hasFinalizer pvc cloneSourcePodFinalizer then
        match cleanup c pvc with
        | Except.error e => (Outcome.err e, c, [])
        | Except.ok (c1, effs) => (Outcome.ok, c1, effs)
      else (Outcome.ok, c, [])
    else
      match waitTargetPodRunningOrSucceeded pvc with
      | Except.error e =>
        (Outcome.err ("error ensuring target upload pod running: " ++ e), c, [])
      | Except.ok false => (Outcome.ok, c, [])
      | Except.ok true =>
        match findCloneSourcePod c.pods pvc with
        | Except.error e => (Outcome.err e, c, [])
        | Except.ok sourcePod =>
          match reconcileSourcePod env c sourcePod pvc with
          | Except.error e => (Outcome.err e, c, [])
          | Except.ok (c1, effs1) =>
            match updatePvcFromPod sourcePod pvc with
            | UpdResult.crashed evs => (Outcome.crashed, c1, effs1 ++ evs)
            | UpdResult.done evs changed pvcNew =>
              if changed then
                (Outcome.ok, putPVC c1 pvcNew, effs1 ++ evs ++ [Effect.updatePVC pvcNew])
              else
                (Outcome.ok, c1, effs1 ++ evs)

/-! ## Concrete fixtures used by counterexamples and witnesses -/

def fixSpec : PVCSpec := { storageRequest := 5, volumeMode := none }

def fixFsSpec : PVCSpec := { storageRequest := 10, volumeMode := some VolumeMode.Filesystem }

def fixBlockSpec : PVCSpec := { storageRequest := 20, volumeMode := some VolumeMode.Block }

def fixResource : TokenResource :=
  { group := "", version := "", resource := "persistentvolumeclaims" }

def fixTokenData : TokenData :=
  { operation := TokenOperation.clone, name := "src", ns := "stage",
    resource := fixResource,
    params := [("targetNamespace", "prod"), ("targetName", "dst")] }

def fixValidate : TokenValidator :=
  fun s => if s = "tok" then Except.ok fixTokenData else Except.error "bad signature"

def fixEnv : Env :=
  { validate := fixValidate, makeClientCert := Except.ok (),
    bundleBytes := Except.ok (), resourceReq := Except.ok () }

def fixSourcePVC : PVC :=
  { ns := "stage", name := "src", uid := "u0", anns := [], finalizers := [],
    spec := fixSpec }

def fixTargetPVC : PVC :=
  { ns := "prod", name := "dst", uid := "u1",
    anns := [(AnnCloneRequest, "stage/src"), (AnnCloneToken, "tok"),
             (AnnPodReady, "true"), (AnnUploadClientName, "ci")],
    finalizers := [], spec := fixSpec }

def fixCluster : Cluster := { pvcs := [fixSourcePVC, fixTargetPVC], pods := [] }

def fixDonePVC : PVC :=
  { ns := "prod", name := "dst", uid := "u1",
    anns := [(AnnCloneRequest, "stage/src"), (AnnPodReady, "true"),
             (AnnPodPhase, "Succeeded")],
    finalizers := [cloneSourcePodFinalizer], spec := fixSpec }

def fixSourcePod : Pod :=
  { ns := "stage", name := "u1-source-pod",
    labels := [(CloneUniqueID, "u1-source-pod")],
    phase := "Succeeded", deletionTimestamp := none, containerStatuses := none }

def fixCluster9 : Cluster :=
  { pvcs := [fixSourcePVC, fixDonePVC], pods := [fixSourcePod] }

def fixEmptyStatusPod : Pod :=
  { fixSourcePod with phase := "Running", containerStatuses := some [] }

def fixRestartPod : Pod :=
  { fixSourcePod with
    phase := "Running",
    containerStatuses := some [ContainerStatus.mk 3] }

def fixReadyOnePVC : PVC :=
  { ns := "n", name := "p", uid := "u", anns := [(AnnPodReady, "1")],
    finalizers := [], spec := fixSpec }

def fixUploadTokenData : TokenData :=
  { operation := TokenOperation.upload, name := "p", ns := "n",
    resource := fixResource, params := [] }

def fixUploadValidate : TokenValidator :=
  fun s => if s = "up-tok" then Except.ok fixUploadTokenData else Except.error "bad signature"

def fixSlashPVC : PVC :=
  { ns := "a", name := "b", uid := "u", anns := [(AnnCloneRequest, "/foo")],
    finalizers := [], spec := fixSpec }

/-! ## Association-list lemmas -/

theorem lookupA_setA_eq (l : List (String × String)) (k v : String) :
    lookupA (setA l k v) k = some v := by
  induction l with
  | nil => simp [setA, lookupA]
  | cons hd t ih =>
    obtain ⟨k', v'⟩ := hd
    by_cases hk : k' = k
    · simp [setA, hk, lookupA]
    · simp [setA, hk, lookupA, ih]

theorem lookupA_setA_ne (l : List (String × String)) (k v k2 : String)
    (h : k2 ≠ k) : lookupA (setA l k v) k2 = lookupA l k2 := by
  have hne : k ≠ k2 := fun hh => h hh.symm
  induction l with
  | nil => simp [setA, lookupA, hne]
  | cons hd t ih =>
    obtain ⟨k', v'⟩ := hd
    by_cases hk : k' = k
    · subst hk
      simp [setA, lookupA, hne]
    · simp only [setA, hk, if_false, lookupA]
      by_cases hk2 : k' = k2
      · simp [hk2]
      · simp [hk2, ih]

/-! ## Claim C2: token binding -/

/-- Claim C2: for every source PVC, target PVC and clone token whose
signature/issuer/time window validate (the validator returns a payload),
`validateCloneToken` accepts iff all six bindings hold (operation is clone,
name and namespace match the source, resource is `persistentvolumeclaims`,
and the `targetNamespace` / `targetName` params match the target); otherwise
it rejects with the invalid-token error, so mutating any single binding field
rejects. -/
theorem claim_C2_token_binding (validate : TokenValidator) (source target : PVC)
    (tok : String) (td : TokenData)
    (hTok : lookupA target.anns AnnCloneToken = some tok)
    (hVal : validate tok = Except.ok td) :
    (validateCloneToken validate source target = Except.ok () ↔
      (td.operation = TokenOperation.clone ∧ td.name = source.name ∧
        td.ns = source.ns ∧ td.resource.resource = resourcePVCs ∧
        lookupD td.params paramTargetNamespace = target.ns ∧
        lookupD td.params paramTargetName = target.name)) ∧
    (¬ (td.operation = TokenOperation.clone ∧ td.name = source.name ∧
        td.ns = source.ns ∧ td.resource.resource = resourcePVCs ∧
        lookupD td.params paramTargetNamespace = target.ns ∧
        lookupD td.params paramTargetName = target.name) →
      validateCloneToken validate source target = Except.error errInvalidToken) := by
  simp only [validateCloneToken, hTok, hVal]
  by_cases hc : td.operation ≠ TokenOperation.clone ∨ td.name ≠ source.name
      ∨ td.ns ≠ source.ns ∨ td.resource.resource ≠ resourcePVCs
      ∨ lookupD td.params paramTargetNamespace ≠ target.ns
      ∨ lookupD td.params paramTargetName ≠ target.name
  · rw [if_pos hc]
    constructor
    · exact iff_of_false (by simp) (fun hconj => by tauto)
    · intro _; rfl
  · rw [if_neg hc]
    push_neg at hc
    constructor
    · exact iff_of_true rfl (by tauto)
    · intro hn
      exact absurd (by tauto) hn

/-- Witness for C2: the fixture token binds the fixture source/target pair and
is accepted. -/
theorem claim_C2_token_binding_witness :
    validateCloneToken fixValidate fixSourcePVC fixTargetPVC = Except.ok () :=
  (claim_C2_token_binding fixValidate fixSourcePVC fixTargetPVC "tok" fixTokenData
    rfl rfl).1.mpr (by decide)

/-! ## Claim C4: clone-request annotation parsing -/

/-- Claim C4 counterexample: the claim requires two *non-empty* parts, but the
code only checks the split arity.  The annotation value `/foo` splits into an
empty namespace part and `foo`, and the parser still reports a clone request
`(namespace := "", name := "foo")`. -/
theorem claim_C4_counterexample :
    parseCloneRequestAnn fixSlashPVC = (true, "", "foo") ∧
    lookupA fixSlashPVC.anns AnnCloneRequest = some "/foo" := by
  constructor
  · rfl
  · rfl

/-- Claim C4 as amended: `ParseCloneRequestAnnotation` reports a clone request
with pair `(namespace, name)` iff the annotation is present and splitting its
value on `/` yields exactly two parts (they may be empty); in every other case
it reports not-a-request with zero-valued results. -/
theorem claim_C4_amended (pvc : PVC) :
    (∀ ns nm, parseCloneRequestAnn pvc = (true, ns, nm) ↔
      ∃ ann, lookupA pvc.anns AnnCloneRequest = some ann ∧
        goSplitSlash ann = [ns, nm]) ∧
    ((parseCloneRequestAnn pvc).1 = false →
      parseCloneRequestAnn pvc = (false, "", "")) := by
  unfold parseCloneRequestAnn
  rcases h : lookupA pvc.anns AnnCloneRequest with _ | ann
  · constructor
    · intro ns nm
      simp
    · intro _
      simp
  · rcases hs : goSplitSlash ann with _ | ⟨x, _ | ⟨y, _ | ⟨z, t⟩⟩⟩
    · exact ⟨fun ns nm => by simp [hs], fun _ => by simp [hs]⟩
    · exact ⟨fun ns nm => by simp [hs], fun _ => by simp [hs]⟩
    · constructor
      · intro ns nm
        simp only [hs]
        constructor
        · intro hh
          simp only [Prod.mk.injEq, true_and] at hh
          refine ⟨ann, rfl, ?_⟩
          rw [hs, hh.1, hh.2]
        · rintro ⟨ann2, hann2, hsplit⟩
          obtain rfl : ann2 = ann := by
            have := hann2.symm
            simpa using this
          rw [hs] at hsplit
          simp only [List.cons.injEq, and_true] at hsplit
          simp [hsplit.1, hsplit.2]
      · intro hh
        simp [hs] at hh
    · exact ⟨fun ns nm => by simp [hs], fun _ => by simp [hs]⟩

/-- Witness for the amended C4: the fixture annotation `stage/src` parses to
`(true, "stage", "src")`. -/
theorem claim_C4_amended_witness :
    parseCloneRequestAnn fixTargetPVC = (true, "stage", "src") :=
  ((claim_C4_amended fixTargetPVC).1 "stage" "src").mpr ⟨"stage/src", rfl, rfl⟩

/-! ## Claim C6: finding the clone source pod -/

/-- Claim C6: `findCloneSourcePod` lists the pods of the source namespace
carrying the label `CloneUniqueID = <uid>-source-pod`; more than one match is
the hard `multiple source pods` error, zero matches reports that no pod exists,
and exactly one match returns that pod. -/
theorem claim_C6_find_source_pod (pods : List Pod) (pvc : PVC) (ns nm : String)
    (h : parseCloneRequestAnn pvc = (true, ns, nm)) :
    ((pods.filter (matchesCloneSource ns pvc)).length > 1 →
      findCloneSourcePod pods pvc = Except.error errMultipleSourcePods) ∧
    (pods.filter (matchesCloneSource ns pvc) = [] →
      findCloneSourcePod pods pvc = Except.ok none) ∧
    (∀ p, pods.filter (matchesCloneSource ns pvc) = [p] →
      findCloneSourcePod pods pvc = Except.ok (some p)) := by
  unfold findCloneSourcePod
  simp only [h]
  refine ⟨?_, ?_, ?_⟩
  · intro hlen
    rw [if_pos hlen]
  · intro hm
    rw [if_neg (by simp [hm])]
    simp [hm]
  · intro p hp
    rw [if_neg (by simp [hp])]
    simp [hp]

/-- Witness for C6: with exactly one matching pod in the cluster, that pod is
returned. -/
theorem claim_C6_find_source_pod_witness :
    findCloneSourcePod fixCluster9.pods fixDonePVC = Except.ok (some fixSourcePod) :=
  (claim_C6_find_source_pod fixCluster9.pods fixDonePVC "stage" "src" rfl).2.2
    fixSourcePod (by decide)

/-! ## Claim C7: source/target spec compatibility -/

/-- Claim C7: `ValidateCanCloneSourceAndTargetSpec` succeeds iff the target's
storage request is at least the source's (byte-exact integer comparison) and
the effective volume modes agree (an absent mode is filesystem); a smaller
target yields the size error, and differing modes yield the
`source volumeMode (...) and target volumeMode (...) do not match` error. -/
theorem claim_C7_spec_compat (s t : PVCSpec) :
    (ValidateCanCloneSourceAndTargetSpec s t = Except.ok () ↔
      (s.storageRequest ≤ t.storageRequest ∧
        effectiveVolumeMode s.volumeMode = effectiveVolumeMode t.volumeMode)) ∧
    (t.storageRequest < s.storageRequest →
      ValidateCanCloneSourceAndTargetSpec s t = Except.error errTargetSmaller) ∧
    (s.storageRequest ≤ t.storageRequest →
      effectiveVolumeMode s.volumeMode ≠ effectiveVolumeMode t.volumeMode →
      ValidateCanCloneSourceAndTargetSpec s t =
        Except.error (volumeModeMismatchMsg (effectiveVolumeMode s.volumeMode)
          (effectiveVolumeMode t.volumeMode))) := by
  unfold ValidateCanCloneSourceAndTargetSpec
  by_cases hgt : s.storageRequest > t.storageRequest
  · rw [if_pos hgt]
    refine ⟨iff_of_false (by simp) (fun hh => absurd hh.1 (by omega)), fun _ => rfl,
      fun hle _ => absurd hgt (by omega)⟩
  · rw [if_neg hgt]
    have hle : s.storageRequest ≤ t.storageRequest := by omega
    by_cases hm : effectiveVolumeMode s.volumeMode = effectiveVolumeMode t.volumeMode
    · rw [if_neg (by simpa using hm)]
      exact ⟨iff_of_true rfl ⟨hle, hm⟩, fun hlt => absurd hlt (by omega),
        fun _ hne => absurd hm hne⟩
    · rw [if_pos (by simpa using hm)]
      exact ⟨iff_of_false (by simp) (fun hh => absurd hh.2 hm),
        fun hlt => absurd hlt (by omega), fun _ _ => rfl⟩

/-- Witness for C7: a filesystem source with a block target yields exactly the
spec's error message, and a larger source than target yields the size error. -/
theorem claim_C7_spec_compat_witness :
    (ValidateCanCloneSourceAndTargetSpec fixFsSpec fixBlockSpec =
      Except.error (volumeModeMismatchMsg VolumeMode.Filesystem VolumeMode.Block)) ∧
    volumeModeMismatchMsg VolumeMode.Filesystem VolumeMode.Block =
      "source volumeMode (Filesystem) and target volumeMode (Block) do not match" ∧
    ValidateCanCloneSourceAndTargetSpec fixBlockSpec fixFsSpec =
      Except.error errTargetSmaller :=
  ⟨(claim_C7_spec_compat fixFsSpec fixBlockSpec).2.2 (by decide) (by decide),
    by decide,
    (claim_C7_spec_compat fixBlockSpec fixFsSpec).2.1 (by decide)⟩

/-! ## Claim C5: the proxy error paths (code bug on client-create failure) -/

/-- Claim C5 evaluation: when `CreateClient` fails, `proxyUploadRequest` only
logs and then calls `Do` on the nil client, a nil-pointer dereference, so the
handler panics with no HTTP status written — the claim that every error path
writes a status (500 for this one) is violated by the code.  A transport
(dial) error does write 500, and a successful upstream response mirrors its
status code. -/
theorem claim_C5_proxy_client_error :
    proxyUploadRequest (Except.error ("cert fetch failed"))
      (fun _ => Except.ok (UpstreamResp.mk 200)) = ProxyOutcome.nilDereference ∧
    proxyUploadRequest (Except.ok (HttpClient.mk 24))
      (fun _ => Except.error ("dial upstream failed")) = ProxyOutcome.wroteStatus 500 ∧
    proxyUploadRequest (Except.ok (HttpClient.mk 24))
      (fun _ => Except.ok (UpstreamResp.mk 201)) = ProxyOutcome.wroteStatus 201 :=
  ⟨rfl, rfl, rfl⟩

/-! ## Claim C8: upload handler authentication statuses -/

/-- Claim C8: an absent `Authorization` header or one not matching the
case-insensitive bearer regex yields 400 before any token validation (the
result is 400 for every validator); a matching header whose token fails
validation yields 401; a validated token whose payload has a non-upload
operation, an empty name or namespace, or a non-PVC resource yields 400. -/
theorem claim_C8_upload_auth :
    (∀ (validate : TokenValidator) (pvcStates : String → String → Nat → GetRes),
      handleUploadRequest validate pvcStates "" = ProxyHandlerResult.status 400) ∧
    (∀ (validate : TokenValidator) (pvcStates : String → String → Nat → GetRes)
      (hdr : String), matchAuthHeader hdr = none →
      handleUploadRequest validate pvcStates hdr = ProxyHandlerResult.status 400) ∧
    (∀ (validate : TokenValidator) (pvcStates : String → String → Nat → GetRes)
      (hdr tok e : String), matchAuthHeader hdr = some tok →
      validate tok = Except.error e →
      handleUploadRequest validate pvcStates hdr = ProxyHandlerResult.status 401) ∧
    (∀ (validate : TokenValidator) (pvcStates : String → String → Nat → GetRes)
      (hdr tok : String) (td : TokenData), matchAuthHeader hdr = some tok →
      validate tok = Except.ok td →
      (td.operation ≠ TokenOperation.upload ∨ td.name = "" ∨ td.ns = "" ∨
        td.resource.resource ≠ resourcePVCs) →
      handleUploadRequest validate pvcStates hdr = ProxyHandlerResult.status 400) := by
  refine ⟨?_, ?_, ?_, ?_⟩
  · intro validate pvcStates
    rfl
  · intro validate pvcStates hdr hm
    by_cases hne : hdr = ""
    · rw [hne]
      rfl
    · unfold handleUploadRequest
      rw [if_neg hne]
      simp [hm]
  · intro validate pvcStates hdr tok e hm hv
    have hne : hdr ≠ "" := by
      intro he
      rw [he] at hm
      exact Option.noConfusion (show (none : Option String) = some tok from hm)
    unfold handleUploadRequest
    rw [if_neg hne]
    simp [hm, hv]
  · intro validate pvcStates hdr tok td hm hv hbad
    have hne : hdr ≠ "" := by
      intro he
      rw [he] at hm
      exact Option.noConfusion (show (none : Option String) = some tok from hm)
    unfold handleUploadRequest
    rw [if_neg hne]
    simp only [hm, hv]
    rw [if_pos hbad]

/-- Witness for C8: a `Basic` scheme header is rejected with 400, a bearer
header with an unknown token is rejected with 401, and a bearer header whose
payload is a clone (not upload) operation is rejected with 400. -/
theorem claim_C8_upload_auth_witness :
    handleUploadRequest fixUploadValidate (fun _ _ _ => GetRes.notFound) "Basic xxx"
      = ProxyHandlerResult.status 400 ∧
    handleUploadRequest fixUploadValidate (fun _ _ _ => GetRes.notFound) "Bearer nope"
      = ProxyHandlerResult.status 401 ∧
    handleUploadRequest fixValidate (fun _ _ _ => GetRes.notFound) "Bearer tok"
      = ProxyHandlerResult.status 400 :=
  ⟨claim_C8_upload_auth.2.1 fixUploadValidate (fun _ _ _ => GetRes.notFound)
      "Basic xxx" (by decide),
    claim_C8_upload_auth.2.2.1 fixUploadValidate (fun _ _ _ => GetRes.notFound)
      "Bearer nope" "nope" "bad signature" (by decide) rfl,
    claim_C8_upload_auth.2.2.2 fixValidate (fun _ _ _ => GetRes.notFound)
      "Bearer tok" "tok" fixTokenData (by decide) rfl (by decide)⟩

/-! ## Poll-loop lemmas and Claim C3 -/

theorem pollLoop_ok_iff (pvcName : String) (states : Nat → GetRes) :
    ∀ fuel i, (pollLoop pvcName states i fuel = Except.ok () ↔
      ∃ k, k < fuel ∧ pollOnce pvcName (states (i + k)) = Except.ok true ∧
        ∀ j, j < k → pollOnce pvcName (states (i + j)) = Except.ok false)
  | 0, i => by
    constructor
    · intro h
      exact absurd h (by simp [pollLoop])
    · rintro ⟨k, hk, _, _⟩
      exact absurd hk (by omega)
  | (n + 1), i => by
    rcases hp : pollOnce pvcName (states i) with e | b
    · constructor
      · intro h
        rw [show pollLoop pvcName states i (n + 1) = Except.error e from by
          simp [pollLoop, hp]] at h
        exact absurd h (by simp)
      · rintro ⟨k, hk, hok, hall⟩
        rcases Nat.eq_zero_or_pos k with rfl | hkpos
        · rw [Nat.add_zero, hp] at hok
          exact absurd hok (by simp)
        · have h0 := hall 0 hkpos
          rw [Nat.add_zero, hp] at h0
          exact absurd h0 (by simp)
    · cases b
      · have heq : pollLoop pvcName states i (n + 1) = pollLoop pvcName states (i + 1) n := by
          simp [pollLoop, hp]
        rw [heq, pollLoop_ok_iff pvcName states n (i + 1)]
        constructor
        · rintro ⟨k, hk, hok, hall⟩
          refine ⟨k + 1, by omega, ?_, ?_⟩
          · rw [show i + (k + 1) = i + 1 + k from by omega]
            exact hok
          · intro j hj
            rcases Nat.eq_zero_or_pos j with rfl | hjpos
            · rw [Nat.add_zero]
              exact hp
            · have hjj := hall (j - 1) (by omega)
              rw [show i + 1 + (j - 1) = i + j from by omega] at hjj
              exact hjj
        · rintro ⟨k, hk, hok, hall⟩
          rcases Nat.eq_zero_or_pos k with rfl | hkpos
          · rw [Nat.add_zero, hp] at hok
            exact absurd hok (by simp)
          · refine ⟨k - 1, by omega, ?_, ?_⟩
            · rw [show i + 1 + (k - 1) = i + k from by omega]
              exact hok
            · intro j hj
              have hjj := hall (j + 1) (by omega)
              rw [show i + (j + 1) = i + 1 + j from by omega] at hjj
              exact hjj
      · have heq : pollLoop pvcName states i (n + 1) = Except.ok () := by
          simp [pollLoop, hp]
        rw [heq]
        constructor
        · intro _
          refine ⟨0, by omega, ?_, fun j hj => absurd hj (by omega)⟩
          rw [Nat.add_zero]
          exact hp
        · intro _
          rfl

theorem pollLoop_allFalse (pvcName : String) (states : Nat → GetRes) :
    ∀ fuel i, (∀ k, k < fuel → pollOnce pvcName (states (i + k)) = Except.ok false) →
      pollLoop pvcName states i fuel = Except.error errWaitTimeout
  | 0, _, _ => by simp [pollLoop]
  | (n + 1), i, hall => by
    have h0 := hall 0 (by omega)
    rw [Nat.add_zero] at h0
    have heq : pollLoop pvcName states i (n + 1) = pollLoop pvcName states (i + 1) n := by
      simp [pollLoop, h0]
    rw [heq]
    refine pollLoop_allFalse pvcName states n (i + 1) (fun k hk => ?_)
    have hkk := hall (k + 1) (by omega)
    rw [show i + (k + 1) = i + 1 + k from by omega] at hkk
    exact hkk

/-- Claim C3 counterexample: the claim says the poll succeeds iff the
`PodReady` annotation *equals* `"true"`, but the code discards the
`strconv.ParseBool` error and accepts every Go-true spelling: with
`PodReady = "1"` the readiness gate succeeds although the annotation is not
`"true"`. -/
theorem claim_C3_counterexample :
    uploadReady (fun _ => GetRes.found fixReadyOnePVC) "p" = Except.ok () ∧
    lookupD fixReadyOnePVC.anns AnnPodReady ≠ "true" := by
  constructor
  · rfl
  · decide

/-- Claim C3 as amended: within the poll budget (one immediate attempt plus
one per second across the 10-second window), `uploadReady` succeeds iff some
poll observes the PVC present, with a pod-phase annotation other than
`Succeeded`, and a `PodReady` annotation that Go-parses to true (one of
`1/t/T/true/TRUE/True`), all earlier polls having continued; a not-found PVC
or a `Succeeded` phase aborts with an error, and all-continue polls exhaust to
the timeout error; whenever `uploadReady` fails the handler returns a final
503 and does not contact the upstream. -/
theorem claim_C3_amended :
    (∀ (states : Nat → GetRes) (nm : String),
      uploadReady states nm = Except.ok () ↔
        ∃ k, k < pollAttempts ∧ pollOnce nm (states k) = Except.ok true ∧
          ∀ j, j < k → pollOnce nm (states j) = Except.ok false) ∧
    (∀ (nm : String) (g : GetRes),
      pollOnce nm g = Except.ok true ↔
        ∃ pvc, g = GetRes.found pvc ∧
          lookupD pvc.anns AnnPodPhase ≠ phaseSucceeded ∧
          goParseBoolD (lookupD pvc.anns AnnPodReady) = true) ∧
    (∀ (nm : String) (pvc : PVC),
      pollOnce nm (GetRes.found pvc) = Except.ok false ↔
        lookupD pvc.anns AnnPodPhase ≠ phaseSucceeded ∧
          goParseBoolD (lookupD pvc.anns AnnPodReady) = false) ∧
    (∀ (nm : String) (g : GetRes), (∃ pvc, g = GetRes.found pvc ∧
        lookupD pvc.anns AnnPodPhase = phaseSucceeded) ∨ g = GetRes.notFound →
      ∃ e, pollOnce nm g = Except.error e) ∧
    (∀ (states : Nat → GetRes) (nm : String),
      (∀ k, k < pollAttempts → pollOnce nm (states k) = Except.ok false) →
      uploadReady states nm = Except.error errWaitTimeout) ∧
    (∀ (validate : TokenValidator) (pvcStates : String → String → Nat → GetRes)
        (hdr tok e : String) (td : TokenData),
      matchAuthHeader hdr = some tok → validate tok = Except.ok td →
      td.operation = TokenOperation.upload → td.name ≠ "" → td.ns ≠ "" →
      td.resource.resource = resourcePVCs →
      uploadReady (pvcStates td.name td.ns) td.name = Except.error e →
      handleUploadRequest validate pvcStates hdr = ProxyHandlerResult.status 503) := by
  refine ⟨?_, ?_, ?_, ?_, ?_, ?_⟩
  · intro states nm
    have := pollLoop_ok_iff nm states pollAttempts 0
    simpa using this
  · intro nm g
    cases g with
    | notFound => simp [pollOnce]
    | apiErr e => simp [pollOnce]
    | found pvc =>
      simp only [pollOnce]
      by_cases hph : lookupD pvc.anns AnnPodPhase == phaseSucceeded
      · rw [if_pos hph]
        simp only [beq_iff_eq] at hph
        exact iff_of_false (by simp) (by rintro ⟨q, hq, hne, _⟩; cases hq; exact hne hph)
      · rw [if_neg hph]
        simp only [beq_iff_eq] at hph
        constructor
        · intro h
          exact ⟨pvc, rfl, hph, by simpa using h⟩
        · rintro ⟨q, hq, _, hready⟩
          cases hq
          simp [hready]
  · intro nm pvc
    simp only [pollOnce]
    by_cases hph : lookupD pvc.anns AnnPodPhase == phaseSucceeded
    · rw [if_pos hph]
      simp only [beq_iff_eq] at hph
      exact iff_of_false (by simp) (fun hh => hh.1 hph)
    · rw [if_neg hph]
      simp only [beq_iff_eq] at hph
      constructor
      · intro h
        exact ⟨hph, by simpa using h⟩
      · rintro ⟨_, hready⟩
        simp [hready]
  · intro nm g hg
    rcases hg with ⟨pvc, rfl, hph⟩ | rfl
    · refine ⟨"rejecting Upload Request for PVC " ++ nm ++ " that already finished uploading", ?_⟩
      simp only [pollOnce]
      rw [if_pos (by simp [hph])]
    · exact ⟨"rejecting Upload Request for PVC " ++ nm ++ " that doesn't exist", rfl⟩
  · intro states nm hall
    refine pollLoop_allFalse nm states pollAttempts 0 (fun k hk => ?_)
    rw [Nat.zero_add]
    exact hall k hk
  · intro validate pvcStates hdr tok e td hm hv hop hname hns hres hur
    have hne : hdr ≠ "" := by
      intro he
      rw [he] at hm
      exact Option.noConfusion (show (none : Option String) = some tok from hm)
    unfold handleUploadRequest
    rw [if_neg hne]
    simp only [hm, hv]
    rw [if_neg (by simp [hop, hname, hns, hres])]
    simp [hur]

/-- Witness for the amended C3: with a token-authorised request whose PVC is
missing, the readiness poll aborts and the handler answers 503. -/
theorem claim_C3_amended_witness :
    handleUploadRequest fixUploadValidate (fun _ _ _ => GetRes.notFound) "Bearer up-tok"
      = ProxyHandlerResult.status 503 :=
  claim_C3_amended.2.2.2.2.2 fixUploadValidate (fun _ _ _ => GetRes.notFound)
    "Bearer up-tok" "up-tok"
    ("rejecting Upload Request for PVC " ++ "p" ++ " that doesn't exist")
    fixUploadTokenData (by decide) rfl rfl (by decide) (by decide) rfl rfl

/-- `updatePvcFromPod` reaches the crash outcome only for a pod whose
`containerStatuses` slice is present but empty. -/
theorem upod_crashed_spec (sp : Option Pod) (pvc : PVC) (evs : List Effect)
    (h : updatePvcFromPod sp pvc = UpdResult.crashed evs) :
    ∃ p, sp = some p ∧ p.containerStatuses = some [] := by
  cases sp with
  | none =>
    exfalso
    simp [updatePvcFromPod] at h
  | some p =>
    rcases hcs : p.containerStatuses with _ | ⟨_ | ⟨c0, t⟩⟩
    · exfalso
      simp [updatePvcFromPod, hcs] at h
    · exact ⟨p, rfl, hcs⟩
    · exfalso
      simp [updatePvcFromPod, hcs] at h

/-! ## Claim C10: container-status indexing -/

/-- Claim C10 counterexample: the Go guard is `ContainerStatuses != nil`, not
non-empty.  A pod observed with a present-but-empty `containerStatuses` slice
passes the guard and `ContainerStatuses[0]` panics (index out of range): the
model's `updatePvcFromPod` reaches the crash outcome. -/
theorem claim_C10_counterexample :
    fixEmptyStatusPod.containerStatuses = some [] ∧
    updatePvcFromPod (some fixEmptyStatusPod) fixTargetPVC = UpdResult.crashed [] := by
  constructor
  · rfl
  · rfl

/-- Claim C10 as amended: the restart-count update is reached exactly when the
pod's `containerStatuses` is non-nil, and for every observed pod whose
`containerStatuses` is nil or non-empty the index-0 access is in bounds — only
a present-but-empty list reaches the out-of-range panic. -/
theorem claim_C10_amended (sp : Option Pod) (pvc : PVC)
    (h : ∀ p, sp = some p → p.containerStatuses ≠ some ([] : List ContainerStatus)) :
    ∃ evs ch q, updatePvcFromPod sp pvc = UpdResult.done evs ch q := by
  rcases hu : updatePvcFromPod sp pvc with evs | ⟨evs, ch, q⟩
  · obtain ⟨p, rfl, hcs⟩ := upod_crashed_spec sp pvc evs hu
    exact absurd hcs (h p rfl)
  · exact ⟨evs, ch, q, rfl⟩

/-- Witness for the amended C10: a pod with one container status completes
without a panic. -/
theorem claim_C10_amended_witness :
    ∃ evs ch q, updatePvcFromPod (some fixRestartPod) fixTargetPVC = UpdResult.done evs ch q :=
  claim_C10_amended (some fixRestartPod) fixTargetPVC (by
    intro p hp
    cases hp
    decide)

/-! ## Finalizer and projection lemmas -/

theorem addFinalizer_anns (pvc : PVC) (n : String) :
    (addFinalizer pvc n).anns = pvc.anns := by
  unfold addFinalizer
  split <;> rfl

theorem addFinalizer_ns (pvc : PVC) (n : String) :
    (addFinalizer pvc n).ns = pvc.ns := by
  unfold addFinalizer
  split <;> rfl

theorem addFinalizer_name (pvc : PVC) (n : String) :
    (addFinalizer pvc n).name = pvc.name := by
  unfold addFinalizer
  split <;> rfl

theorem addFinalizer_uid (pvc : PVC) (n : String) :
    (addFinalizer pvc n).uid = pvc.uid := by
  unfold addFinalizer
  split <;> rfl

theorem removeFinalizer_anns (pvc : PVC) (n : String) :
    (removeFinalizer pvc n).anns = pvc.anns := by
  unfold removeFinalizer
  split <;> rfl

theorem removeFinalizer_ns (pvc : PVC) (n : String) :
    (removeFinalizer pvc n).ns = pvc.ns := by
  unfold removeFinalizer
  split <;> rfl

theorem removeFinalizer_name (pvc : PVC) (n : String) :
    (removeFinalizer pvc n).name = pvc.name := by
  unfold removeFinalizer
  split <;> rfl

theorem removeFinalizer_uid (pvc : PVC) (n : String) :
    (removeFinalizer pvc n).uid = pvc.uid := by
  unfold removeFinalizer
  split <;> rfl

theorem hasFinalizer_addFinalizer (pvc : PVC) (n : String) :
    hasFinalizer (addFinalizer pvc n) n = true := by
  unfold addFinalizer
  split
  · assumption
  · unfold hasFinalizer
    simp

theorem addFinalizer_of_hasFinalizer (pvc : PVC) (n : String)
    (h : hasFinalizer pvc n = true) : addFinalizer pvc n = pvc := by
  unfold addFinalizer
  rw [if_pos h]

theorem hasFinalizer_removeFinalizer (pvc : PVC) (n : String) :
    hasFinalizer (removeFinalizer pvc n) n = false := by
  unfold removeFinalizer
  split
  · next hcond =>
    simp only [Bool.not_eq_true'] at hcond
    exact hcond
  · unfold hasFinalizer
    simp [List.mem_filter]

/-! ## Congruence lemmas: which annotations each check reads -/

theorem shouldReconcile_congr (p q : PVC)
    (h1 : lookupA p.anns AnnCloneRequest = lookupA q.anns AnnCloneRequest)
    (h2 : lookupA p.anns AnnCloneOf = lookupA q.anns AnnCloneOf) :
    shouldReconcile p = shouldReconcile q := by
  unfold shouldReconcile checkPVC hasAnn
  rw [h1, h2]

theorem parseCloneRequestAnn_congr (p q : PVC)
    (h1 : lookupA p.anns AnnCloneRequest = lookupA q.anns AnnCloneRequest) :
    parseCloneRequestAnn p = parseCloneRequestAnn q := by
  unfold parseCloneRequestAnn
  rw [h1]

theorem podSucceededFromPVC_congr (p q : PVC)
    (h : lookupA p.anns AnnPodPhase = lookupA q.anns AnnPodPhase) :
    podSucceededFromPVC p = podSucceededFromPVC q := by
  unfold podSucceededFromPVC lookupD
  rw [h]

theorem waitTarget_congr (p q : PVC)
    (h1 : lookupA p.anns AnnPodReady = lookupA q.anns AnnPodReady)
    (h2 : lookupA p.anns AnnPodPhase = lookupA q.anns AnnPodPhase) :
    waitTargetPodRunningOrSucceeded p = waitTargetPodRunningOrSucceeded q := by
  unfold waitTargetPodRunningOrSucceeded
  rw [h1, podSucceededFromPVC_congr p q h2]

theorem matchesCloneSource_congr (p q : PVC) (h : p.uid = q.uid) :
    ∀ ns, matchesCloneSource ns p = matchesCloneSource ns q := by
  intro ns
  funext pod
  unfold matchesCloneSource getCloneSourcePodName
  rw [h]

theorem findCloneSourcePod_congr (pods : List Pod) (p q : PVC)
    (h1 : lookupA p.anns AnnCloneRequest = lookupA q.anns AnnCloneRequest)
    (h2 : p.uid = q.uid) :
    findCloneSourcePod pods p = findCloneSourcePod pods q := by
  unfold findCloneSourcePod
  rw [parseCloneRequestAnn_congr p q h1]
  simp only [matchesCloneSource_congr p q h2]

/-! ## Cluster access lemmas -/

theorem getPVC_some_keys (c : Cluster) (ns nm : String) (q : PVC)
    (h : getPVC c ns nm = some q) : q.ns = ns ∧ q.name = nm := by
  unfold getPVC at h
  have := List.find?_some h
  simp only [Bool.and_eq_true, beq_iff_eq] at this
  exact this

theorem find?_map_put (l : List PVC) (ns nm : String) (pvc q : PVC)
    (h : l.find? (fun x => x.ns == ns && x.name == nm) = some pvc)
    (hns : q.ns = pvc.ns) (hnm : q.name = pvc.name)
    (hpns : pvc.ns = ns) (hpnm : pvc.name = nm) :
    (l.map (fun x => if x.ns == q.ns && x.name == q.name then q else x)).find?
      (fun x => x.ns == ns && x.name == nm) = some q := by
  induction l with
  | nil => simp at h
  | cons x t ih =>
    rw [List.map_cons]
    by_cases hx : (x.ns == ns && x.name == nm) = true
    · simp only [List.find?, hx] at h
      obtain rfl : x = pvc := by injection h
      have hcond : (x.ns == q.ns && x.name == q.name) = true := by
        simp [hns, hnm]
      rw [if_pos hcond]
      simp only [List.find?]
      rw [show (q.ns == ns && q.name == nm) = true from by simp [hns, hnm, hpns, hpnm]]
    · rw [Bool.not_eq_true] at hx
      simp only [List.find?, hx] at h
      have hcond : (x.ns == q.ns && x.name == q.name) = false := by
        rw [Bool.eq_false_iff]
        intro hc
        simp only [Bool.and_eq_true, beq_iff_eq] at hc
        rw [Bool.eq_false_iff] at hx
        apply hx
        simp [hc.1, hc.2, hns, hnm, hpns, hpnm]
      rw [if_neg (by simp [hcond])]
      simp only [List.find?, hx]
      exact ih h

theorem getPVC_putPVC_self (c : Cluster) (ns nm : String) (pvc q : PVC)
    (h : getPVC c ns nm = some pvc) (hns : q.ns = pvc.ns) (hnm : q.name = pvc.name) :
    getPVC (putPVC c q) ns nm = some q := by
  obtain ⟨hpns, hpnm⟩ := getPVC_some_keys c ns nm pvc h
  unfold getPVC at h
  unfold getPVC putPVC
  exact find?_map_put c.pvcs ns nm pvc q h hns hnm hpns hpnm

theorem putPVC_pods (c : Cluster) (q : PVC) : (putPVC c q).pods = c.pods := rfl

theorem removePod_pvcs (c : Cluster) (a b : String) : (removePod c a b).pvcs = c.pvcs := rfl

/-! ## Decimal round-trip: `goAtoi (goItoa n) = n` -/

theorem parseNatCore_append_one (xs : List Char) (c : Char) :
    parseNatCore (xs ++ [c]) = 10 * parseNatCore xs + digitVal c := by
  unfold parseNatCore
  rw [List.foldl_append]
  rfl

theorem digit_char_spec : ∀ d : Fin 10,
    digitVal (Char.ofNat (48 + d.val)) = d.val ∧
      (Char.ofNat (48 + d.val)).isDigit = true := by decide

theorem natCharsAux_spec : ∀ fuel n, n ≤ fuel →
    parseNatCore (natCharsAux fuel n) = n ∧
      (natCharsAux fuel n).all Char.isDigit = true ∧
      (n ≠ 0 → natCharsAux fuel n ≠ []) := by
  intro fuel
  induction fuel with
  | zero =>
    intro n hn
    obtain rfl : n = 0 := Nat.le_zero.mp hn
    simp [natCharsAux, parseNatCore]
  | succ m ih =>
    intro n hn
    by_cases h0 : n = 0
    · subst h0
      simp [natCharsAux, parseNatCore]
    · have hdiv : n / 10 ≤ m := by
        have : n / 10 < n := Nat.div_lt_self (Nat.pos_of_ne_zero h0) (by omega)
        omega
      obtain ⟨ih1, ih2, _⟩ := ih (n / 10) hdiv
      have hd := digit_char_spec ⟨n % 10, Nat.mod_lt n (by omega)⟩
      unfold natCharsAux
      rw [if_neg h0]
      have hmod : digitVal (Char.ofNat (48 + n % 10)) = n % 10 := hd.1
      refine ⟨?_, ?_, ?_⟩
      · rw [parseNatCore_append_one, ih1, hmod]
        omega
      · rw [List.all_append]
        simp only [ih2, List.all_cons, List.all_nil, hd.2]
        rfl
      · intro _
        simp

theorem goAtoi_natRepr (n : Nat) : goAtoi (natRepr n) = n := by
  by_cases h0 : n = 0
  · subst h0
    decide
  · obtain ⟨h1, h2, h3⟩ := natCharsAux_spec (n + 1) n (by omega)
    unfold natRepr
    rw [if_neg h0]
    unfold goAtoi
    rcases hcs : natCharsAux (n + 1) n with _ | ⟨c, rest⟩
    · exact absurd hcs (h3 h0)
    · have htl : (String.mk (c :: rest)).toList = c :: rest := rfl
      rw [hcs] at h1 h2
      simp only [htl]
      have hcd : c.isDigit = true := by
        simp only [List.all_cons, Bool.and_eq_true] at h2
        exact h2.1
      have hcp : c ≠ '+' := by
        intro hc
        rw [hc] at hcd
        exact absurd hcd (by decide)
      have hcm : c ≠ '-' := by
        intro hc
        rw [hc] at hcd
        exact absurd hcd (by decide)
      rw [if_neg hcp, if_neg hcm]
      unfold goAtoiDigits
      rw [if_pos ⟨by simp, h2⟩]
      simp only [h1]
      rfl

theorem goAtoi_goItoa_ofNat (m : Nat) : goAtoi (goItoa (m : Int)) = m := by
  unfold goItoa
  rw [if_neg (by omega)]
  rw [show ((m : Int)).natAbs = m from Int.natAbs_ofNat m]
  exact goAtoi_natRepr m

/-! ## `updatePvcFromPod` characterizations -/

/-- A PVC that already carries the finalizer, whose target pod has not
succeeded, and whose pod-restarts annotation is already at or above the
observed restart count, passes through `updatePvcFromPod` unchanged with no
events. -/
theorem upod_second_noop (sp : Option Pod) (q : PVC)
    (hfin : hasFinalizer q cloneSourcePodFinalizer = true)
    (hsucc : podSucceededFromPVC q = false)
    (hcs : ∀ p, sp = some p → p.containerStatuses ≠ some [])
    (hres : ∀ p c0 t, sp = some p → p.containerStatuses = some (c0 :: t) →
      ¬((c0.restartCount : Int) > goAtoi (lookupD q.anns AnnPodRestarts))) :
    updatePvcFromPod sp q = UpdResult.done [] false q := by
  unfold updatePvcFromPod
  rw [addFinalizer_of_hasFinalizer q _ hfin]
  have hhit : (podSucceededFromPVC q && (lookupD q.anns AnnCloneOf != trueStr)) = false := by
    rw [hsucc]
    rfl
  simp only [hhit, Bool.false_eq_true, if_false]
  cases sp with
  | none =>
    simp
  | some p =>
    rcases hpcs : p.containerStatuses with _ | ⟨_ | ⟨c0, t⟩⟩
    · simp [hpcs]
    · exact absurd hpcs (hcs p rfl)
    · have hcond := hres p c0 t rfl hpcs
      simp [hpcs, hcond]

/-- What a completed `updatePvcFromPod` pass guarantees when no
`CloneSucceeded` event was emitted and the PVC has no `CloneOf` annotation:
no events, the target pod had not succeeded, the change flag is the deep
inequality with the snapshot, the result carries the finalizer and the same
identity, annotations other than the pod-restarts one are untouched, the
observed pod statuses were not present-but-empty, and the pod-restarts
annotation is now at or above the observed restart count. -/
theorem upod_first_facts (sp : Option Pod) (pvc : PVC) (evs : List Effect)
    (ch : Bool) (q : PVC)
    (h : updatePvcFromPod sp pvc = UpdResult.done evs ch q)
    (hev : Effect.event CloneSucceededPVC ∉ evs)
    (hcloneOf : lookupA pvc.anns AnnCloneOf = none) :
    evs = [] ∧
    podSucceededFromPVC pvc = false ∧
    ch = decide (q ≠ pvc) ∧
    hasFinalizer q cloneSourcePodFinalizer = true ∧
    q.ns = pvc.ns ∧ q.name = pvc.name ∧ q.uid = pvc.uid ∧
    (∀ k, k ≠ AnnPodRestarts → lookupA q.anns k = lookupA pvc.anns k) ∧
    (∀ p, sp = some p → p.containerStatuses ≠ some []) ∧
    (∀ p c0 t, sp = some p → p.containerStatuses = some (c0 :: t) →
      ¬((c0.restartCount : Int) > goAtoi (lookupD q.anns AnnPodRestarts))) := by
  have hps : podSucceededFromPVC (addFinalizer pvc cloneSourcePodFinalizer)
      = podSucceededFromPVC pvc :=
    podSucceededFromPVC_congr _ _ (by rw [addFinalizer_anns])
  have hco : lookupD pvc.anns AnnCloneOf = "" := by
    unfold lookupD
    rw [hcloneOf]
  unfold updatePvcFromPod at h
  simp only [hps, addFinalizer_anns] at h
  by_cases hC : (podSucceededFromPVC pvc && (lookupD pvc.anns AnnCloneOf != trueStr)) = true
  · -- the CloneOf branch fired: every completed outcome carries the event
    exfalso
    simp only [if_pos hC] at h
    cases sp with
    | none =>
      injection h with h1 h2 h3
      rw [← h1] at hev
      exact hev (by simp)
    | some p =>
      rcases hpcs : p.containerStatuses with _ | ⟨_ | ⟨c0, t⟩⟩
      · simp only [hpcs] at h
        injection h with h1 h2 h3
        rw [← h1] at hev
        exact hev (by simp)
      · simp only [hpcs] at h
        exact absurd h (by simp)
      · simp only [hpcs] at h
        split at h
        · injection h with h1 h2 h3
          rw [← h1] at hev
          exact hev (by simp)
        · injection h with h1 h2 h3
          rw [← h1] at hev
          exact hev (by simp)
  · have hsucc : podSucceededFromPVC pvc = false := by
      rcases hb : podSucceededFromPVC pvc with _ | _
      · rfl
      · exfalso
        apply hC
        rw [hb, hco]
        rfl
    simp only [if_neg hC, addFinalizer_anns] at h
    cases sp with
    | none =>
      injection h with h1 h2 h3
      subst h1
      subst h2
      subst h3
      refine ⟨rfl, hsucc, rfl, hasFinalizer_addFinalizer pvc _, addFinalizer_ns pvc _,
        addFinalizer_name pvc _, addFinalizer_uid pvc _, ?_, ?_, ?_⟩
      · intro k _
        rw [addFinalizer_anns]
      · intro p hp
        exact absurd hp (by simp)
      · intro p c0 t hp
        exact absurd hp (by simp)
    | some p =>
      rcases hpcs : p.containerStatuses with _ | ⟨_ | ⟨c0, t⟩⟩
      · simp only [hpcs] at h
        injection h with h1 h2 h3
        subst h1
        subst h2
        subst h3
        refine ⟨rfl, hsucc, rfl, hasFinalizer_addFinalizer pvc _, addFinalizer_ns pvc _,
          addFinalizer_name pvc _, addFinalizer_uid pvc _, ?_, ?_, ?_⟩
        · intro k _
          rw [addFinalizer_anns]
        · intro p2 hp2
          obtain rfl : p = p2 := by injection hp2
          rw [hpcs]
          simp
        · intro p2 c02 t2 hp2 hcs2
          obtain rfl : p = p2 := by injection hp2
          rw [hpcs] at hcs2
          exact absurd hcs2 (by simp)
      · simp only [hpcs] at h
        exact absurd h (by simp)
      · simp only [hpcs] at h
        by_cases hcond : (c0.restartCount : Int) > goAtoi (lookupD pvc.anns AnnPodRestarts)
        · rw [if_pos hcond] at h
          injection h with h1 h2 h3
          subst h1
          subst h2
          subst h3
          refine ⟨rfl, hsucc, rfl, hasFinalizer_addFinalizer pvc _, addFinalizer_ns pvc _,
            addFinalizer_name pvc _, addFinalizer_uid pvc _, ?_, ?_, ?_⟩
          · intro k hk
            exact lookupA_setA_ne pvc.anns AnnPodRestarts _ k hk
          · intro p2 hp2
            obtain rfl : p = p2 := by injection hp2
            rw [hpcs]
            simp
          · intro p2 c02 t2 hp2 hcs2
            obtain rfl : p = p2 := by injection hp2
            rw [hpcs] at hcs2
            obtain ⟨rfl, rfl⟩ : c0 = c02 ∧ t = t2 := by
              have hx := Option.some.inj hcs2
              exact ⟨(List.cons.inj hx).1, (List.cons.inj hx).2⟩
            show ¬((c0.restartCount : Int) > goAtoi (lookupD (setA pvc.anns AnnPodRestarts
              (goItoa (c0.restartCount : Int))) AnnPodRestarts))
            have hget : lookupD (setA pvc.anns AnnPodRestarts (goItoa (c0.restartCount : Int)))
                AnnPodRestarts = goItoa (c0.restartCount : Int) := by
              unfold lookupD
              rw [lookupA_setA_eq]
            rw [hget, goAtoi_goItoa_ofNat]
            omega
        · rw [if_neg hcond] at h
          injection h with h1 h2 h3
          subst h1
          subst h2
          subst h3
          refine ⟨rfl, hsucc, rfl, hasFinalizer_addFinalizer pvc _, addFinalizer_ns pvc _,
            addFinalizer_name pvc _, addFinalizer_uid pvc _, ?_, ?_, ?_⟩
          · intro k _
            rw [addFinalizer_anns]
          · intro p2 hp2
            obtain rfl : p = p2 := by injection hp2
            rw [hpcs]
            simp
          · intro p2 c02 t2 hp2 hcs2
            obtain rfl : p = p2 := by injection hp2
            rw [hpcs] at hcs2
            obtain ⟨rfl, rfl⟩ : c0 = c02 ∧ t = t2 := by
              have hx := Option.some.inj hcs2
              exact ⟨(List.cons.inj hx).1, (List.cons.inj hx).2⟩
            show ¬((c0.restartCount : Int) >
              goAtoi (lookupD (addFinalizer pvc cloneSourcePodFinalizer).anns AnnPodRestarts))
            rw [addFinalizer_anns]
            exact hcond

/-! ## Reconcile-level helper lemmas -/

/-- A pass whose PVC is relevant and ready, whose source pod is found, and
whose PVC update is a no-change completes with no state-changing effects. -/
theorem reconcile_effects_empty (env : Env) (c2 : Cluster) (ns nm : String)
    (q : PVC) (sp : Pod)
    (hget : getPVC c2 ns nm = some q)
    (hsr : shouldReconcile q = true)
    (hw : waitTargetPodRunningOrSucceeded q = Except.ok true)
    (hf : findCloneSourcePod c2.pods q = Except.ok (some sp))
    (hu : updatePvcFromPod (some sp) q = UpdResult.done [] false q) :
    (reconcile env c2 ns nm).2.2 = [] := by
  simp only [reconcile, hget, hsr, Bool.not_true, Bool.false_eq_true, if_false,
    hw, hf, reconcileSourcePod, hu, List.nil_append, List.append_nil]

/-- When the clone-request annotation parses and `findCloneSourcePod` reports
no pod, no pod in the cluster matches the selector. -/
theorem findCloneSourcePod_none_filter (pods : List Pod) (pvc : PVC)
    (ns nm : String)
    (hp : parseCloneRequestAnn pvc = (true, ns, nm))
    (h : findCloneSourcePod pods pvc = Except.ok none) :
    pods.filter (matchesCloneSource ns pvc) = [] := by
  unfold findCloneSourcePod at h
  simp only [hp] at h
  by_cases hl : (pods.filter (matchesCloneSource ns pvc)).length > 1
  · rw [if_pos hl] at h
    exact absurd h (by simp)
  · rw [if_neg hl] at h
    rcases hm : pods.filter (matchesCloneSource ns pvc) with _ | ⟨p, t⟩
    · rfl
    · rw [hm] at h
      exact absurd h (by simp)

/-- When exactly one pod matches the selector, `findCloneSourcePod` returns it. -/
theorem findCloneSourcePod_of_single (pods : List Pod) (pvc : PVC)
    (ns nm : String) (p : Pod)
    (hp : parseCloneRequestAnn pvc = (true, ns, nm))
    (hm : pods.filter (matchesCloneSource ns pvc) = [p]) :
    findCloneSourcePod pods pvc = Except.ok (some p) := by
  unfold findCloneSourcePod
  simp only [hp]
  rw [if_neg (by simp [hm])]
  rw [hm]

/-- Shape of a successful `reconcileSourcePod` with no pod found: the clone
request parses, and the built source pod is created in the source namespace
with the create effect recorded. -/
theorem reconcileSourcePod_none_spec (env : Env) (c : Cluster) (pvc : PVC)
    (c1 : Cluster) (effs : List Effect)
    (h : reconcileSourcePod env c none pvc = Except.ok (c1, effs)) :
    ∃ ns nm, parseCloneRequestAnn pvc = (true, ns, nm) ∧
      c1 = { c with pods := c.pods ++ [MakeCloneSourcePodSpec ns pvc] } ∧
      effs = [Effect.createPod (MakeCloneSourcePodSpec ns pvc)] := by
  unfold reconcileSourcePod at h
  rcases hv : validateSourceAndTarget env c pvc with e | u
  · simp only [hv] at h
    exact absurd h (by simp)
  · simp only [hv] at h
    rcases hl : lookupA pvc.anns AnnUploadClientName with _ | cn
    · simp only [hl] at h
      exact absurd h (by simp)
    · simp only [hl] at h
      unfold CreateCloneSourcePod at h
      rcases hp : parseCloneRequestAnn pvc with ⟨b, pns, pnm⟩
      cases b with
      | false =>
        simp only [hp] at h
        exact absurd h (by simp)
      | true =>
        simp only [hp] at h
        rcases hmc : env.makeClientCert with e | u2
        · simp only [hmc] at h
          exact absurd h (by simp)
        · simp only [hmc] at h
          rcases hbb : env.bundleBytes with e | u3
          · simp only [hbb] at h
            exact absurd h (by simp)
          · simp only [hbb] at h
            rcases hrr : env.resourceReq with e | u4
            · simp only [hrr] at h
              exact absurd h (by simp)
            · simp only [hrr] at h
              by_cases hex : (c.pods.any (fun q2 =>
                  q2.ns == (MakeCloneSourcePodSpec pns pvc).ns &&
                    q2.name == (MakeCloneSourcePodSpec pns pvc).name)) = true
              · rw [if_pos hex] at h
                exact absurd h (by simp)
              · rw [if_neg hex] at h
                refine ⟨pns, pnm, rfl, ?_, ?_⟩
                · have := congrArg (fun x => x.1) (Except.ok.inj h)
                  exact this.symm
                · have := congrArg (fun x => x.2) (Except.ok.inj h)
                  exact this.symm

/-- Shape of a successful `cleanup`: either the wait case (no effects), or a
delete followed by the finalizer-removing update, or the update alone. -/
theorem cleanup_spec (c : Cluster) (pvc : PVC) (c1 : Cluster) (effs : List Effect)
    (h : cleanup c pvc = Except.ok (c1, effs)) :
    (c1 = c ∧ effs = []) ∨
    (∃ a b, c1 = putPVC (removePod c a b) (removeFinalizer pvc cloneSourcePodFinalizer) ∧
      effs = [Effect.deletePod a b,
        Effect.updatePVC (removeFinalizer pvc cloneSourcePodFinalizer)]) ∨
    (c1 = putPVC c (removeFinalizer pvc cloneSourcePodFinalizer) ∧
      effs = [Effect.updatePVC (removeFinalizer pvc cloneSourcePodFinalizer)]) := by
  unfold cleanup at h
  rcases hf : findCloneSourcePod c.pods pvc with e | (_ | pod)
  · simp only [hf] at h
    exact absurd h (by simp)
  · simp only [hf] at h
    have hx := Except.ok.inj h
    exact Or.inr (Or.inr ⟨(congrArg (fun x => x.1) hx).symm,
      (congrArg (fun x => x.2) hx).symm⟩)
  · simp only [hf] at h
    by_cases hdt : pod.deletionTimestamp = none
    · rw [if_pos hdt] at h
      by_cases hwait : (podSucceededFromPVC pvc && pod.phase == phaseRunning) = true
      · rw [if_pos hwait] at h
        have hx := Except.ok.inj h
        exact Or.inl ⟨(congrArg (fun x => x.1) hx).symm,
          (congrArg (fun x => x.2) hx).symm⟩
      · rw [if_neg hwait] at h
        have hx := Except.ok.inj h
        exact Or.inr (Or.inl ⟨pod.ns, pod.name,
          (congrArg (fun x => x.1) hx).symm,
          (congrArg (fun x => x.2) hx).symm⟩)
    · rw [if_neg hdt] at h
      have hx := Except.ok.inj h
      exact Or.inr (Or.inr ⟨(congrArg (fun x => x.1) hx).symm,
        (congrArg (fun x => x.2) hx).symm⟩)


/-- A relevant PVC has no `CloneOf` annotation. -/
theorem shouldReconcile_facts (pvc : PVC) (h : shouldReconcile pvc = true) :
    lookupA pvc.anns AnnCloneOf = none := by
  unfold shouldReconcile checkPVC hasAnn at h
  rcases hco : lookupA pvc.anns AnnCloneOf with _ | v
  · rfl
  · rw [hco] at h
    simp at h

/-- The pod built by `MakeCloneSourcePodSpec` matches its own selector. -/
theorem matchesCloneSource_make (ns : String) (pvc : PVC) :
    matchesCloneSource ns pvc (MakeCloneSourcePodSpec ns pvc) = true := by
  unfold matchesCloneSource MakeCloneSourcePodSpec getCloneSourcePodName
  simp [lookupA, commonCDILabelKey, commonCDIComponentLabel, CloneUniqueID]

/-- A pass over an irrelevant PVC without the finalizer issues no effects. -/
theorem reconcile_noop_cleaned (env : Env) (c2 : Cluster) (ns nm : String) (q : PVC)
    (hget : getPVC c2 ns nm = some q)
    (hsr : shouldReconcile q = false)
    (hfb : hasFinalizer q cloneSourcePodFinalizer = false) :
    (reconcile env c2 ns nm).2.2 = [] := by
  unfold reconcile
  simp only [hget]
  rw [if_pos (show (!shouldReconcile q) = true from by rw [hsr]; rfl)]
  rw [if_neg (show ¬(hasFinalizer q cloneSourcePodFinalizer = true) from by rw [hfb]; simp)]

/-- A crashing `updatePvcFromPod` pass has emitted at most the clone event. -/
theorem upod_crashed_evs (sp : Option Pod) (pvc : PVC) (evs : List Effect)
    (h : updatePvcFromPod sp pvc = UpdResult.crashed evs) :
    evs = [] ∨ evs = [Effect.event CloneSucceededPVC] := by
  obtain ⟨p, rfl, hcs⟩ := upod_crashed_spec sp pvc evs h
  unfold updatePvcFromPod at h
  simp only [hcs] at h
  by_cases hC : (podSucceededFromPVC (addFinalizer pvc cloneSourcePodFinalizer)
      && (lookupD (addFinalizer pvc cloneSourcePodFinalizer).anns AnnCloneOf != trueStr)) = true
  · rw [if_pos hC] at h
    injection h with h1
    exact Or.inr h1.symm
  · rw [if_neg hC] at h
    injection h with h1
    exact Or.inl h1.symm

/-- Stability: rerunning `Reconcile` on the cluster produced by a pass that
did not newly set `CloneOf` (no `CloneSucceeded` event) issues no
state-changing effects. -/
theorem reconcile_stable (env : Env) (c : Cluster) (ns nm : String)
    (o1 : Outcome) (c1 : Cluster) (e1 : List Effect)
    (h : reconcile env c ns nm = (o1, c1, e1))
    (hev : Effect.event CloneSucceededPVC ∉ e1) :
    (reconcile env c1 ns nm).2.2 = [] := by
  have h0 := h
  unfold reconcile at h
  rcases hget : getPVC c ns nm with _ | pvc
  · simp only [hget] at h
    have hc1 : c1 = c := (congrArg (fun x => x.2.1) h).symm
    have he1 : e1 = [] := (congrArg (fun x => x.2.2) h).symm
    rw [hc1, h0]
    exact he1
  · simp only [hget] at h
    rcases hsrb : shouldReconcile pvc with _ | _
    · -- not relevant: cleanup or nothing
      rw [if_pos (show (!shouldReconcile pvc) = true from by rw [hsrb]; rfl)] at h
      rcases hfb : hasFinalizer pvc cloneSourcePodFinalizer with _ | _
      · rw [if_neg (show ¬(hasFinalizer pvc cloneSourcePodFinalizer = true) from by
          rw [hfb]; simp)] at h
        have hc1 : c1 = c := (congrArg (fun x => x.2.1) h).symm
        have he1 : e1 = [] := (congrArg (fun x => x.2.2) h).symm
        rw [hc1, h0]
        exact he1
      · rw [if_pos hfb] at h
        rcases hcl : cleanup c pvc with e | ⟨c1x, effsx⟩
        · simp only [hcl] at h
          have hc1 : c1 = c := (congrArg (fun x => x.2.1) h).symm
          have he1 : e1 = [] := (congrArg (fun x => x.2.2) h).symm
          rw [hc1, h0]
          exact he1
        · simp only [hcl] at h
          have hc1 : c1 = c1x := (congrArg (fun x => x.2.1) h).symm
          have he1 : e1 = effsx := (congrArg (fun x => x.2.2) h).symm
          rcases cleanup_spec c pvc c1x effsx hcl with ⟨rfl, rfl⟩ |
            ⟨a, b, rfl, rfl⟩ | ⟨rfl, rfl⟩
          · rw [hc1, h0]
            exact he1
          · rw [hc1]
            refine reconcile_noop_cleaned env _ ns nm
              (removeFinalizer pvc cloneSourcePodFinalizer) ?_ ?_ ?_
            · exact getPVC_putPVC_self (removePod c a b) ns nm pvc _ hget
                (removeFinalizer_ns pvc _) (removeFinalizer_name pvc _)
            · rw [shouldReconcile_congr (removeFinalizer pvc cloneSourcePodFinalizer) pvc
                (by rw [removeFinalizer_anns]) (by rw [removeFinalizer_anns])]
              exact hsrb
            · exact hasFinalizer_removeFinalizer pvc _
          · rw [hc1]
            refine reconcile_noop_cleaned env _ ns nm
              (removeFinalizer pvc cloneSourcePodFinalizer) ?_ ?_ ?_
            · exact getPVC_putPVC_self c ns nm pvc _ hget
                (removeFinalizer_ns pvc _) (removeFinalizer_name pvc _)
            · rw [shouldReconcile_congr (removeFinalizer pvc cloneSourcePodFinalizer) pvc
                (by rw [removeFinalizer_anns]) (by rw [removeFinalizer_anns])]
              exact hsrb
            · exact hasFinalizer_removeFinalizer pvc _
    · -- relevant: reconcile branch
      rw [if_neg (show ¬((!shouldReconcile pvc) = true) from by rw [hsrb]; simp)] at h
      have hcloneOf := shouldReconcile_facts pvc hsrb
      rcases hw : waitTargetPodRunningOrSucceeded pvc with e | b
      · simp only [hw] at h
        have hc1 : c1 = c := (congrArg (fun x => x.2.1) h).symm
        have he1 : e1 = [] := (congrArg (fun x => x.2.2) h).symm
        rw [hc1, h0]
        exact he1
      · cases b
        · simp only [hw] at h
          have hc1 : c1 = c := (congrArg (fun x => x.2.1) h).symm
          have he1 : e1 = [] := (congrArg (fun x => x.2.2) h).symm
          rw [hc1, h0]
          exact he1
        · simp only [hw] at h
          rcases hfind : findCloneSourcePod c.pods pvc with e | spOpt
          · simp only [hfind] at h
            have hc1 : c1 = c := (congrArg (fun x => x.2.1) h).symm
            have he1 : e1 = [] := (congrArg (fun x => x.2.2) h).symm
            rw [hc1, h0]
            exact he1
          · simp only [hfind] at h
            rcases hrsp : reconcileSourcePod env c spOpt pvc with e | ⟨c1x, effs1⟩
            · simp only [hrsp] at h
              have hc1 : c1 = c := (congrArg (fun x => x.2.1) h).symm
              have he1 : e1 = [] := (congrArg (fun x => x.2.2) h).symm
              rw [hc1, h0]
              exact he1
            · simp only [hrsp] at h
              rcases hupd : updatePvcFromPod spOpt pvc with evs | ⟨evs, ch, q⟩
              · -- crashed pass
                simp only [hupd] at h
                obtain ⟨p, rfl, hcs⟩ := upod_crashed_spec spOpt pvc evs hupd
                simp only [reconcileSourcePod] at hrsp
                have hc1x : c1x = c := (congrArg (fun x => x.1) (Except.ok.inj hrsp)).symm
                have heffs1 : effs1 = [] := (congrArg (fun x => x.2) (Except.ok.inj hrsp)).symm
                have hc1 : c1 = c1x := (congrArg (fun x => x.2.1) h).symm
                have he1 : e1 = effs1 ++ evs := (congrArg (fun x => x.2.2) h).symm
                have hevs : evs = [] := by
                  rcases upod_crashed_evs (some p) pvc evs hupd with hvv | hvv
                  · exact hvv
                  · exfalso
                    apply hev
                    rw [he1, heffs1, hvv]
                    simp
                rw [hc1, hc1x, h0, he1, heffs1, hevs]
                rfl
              · -- completed pass
                simp only [hupd] at h
                cases spOpt with
                | some sp =>
                  simp only [reconcileSourcePod] at hrsp
                  have hc1x : c1x = c := (congrArg (fun x => x.1) (Except.ok.inj hrsp)).symm
                  have heffs1 : effs1 = [] := (congrArg (fun x => x.2) (Except.ok.inj hrsp)).symm
                  rw [hc1x, heffs1] at h
                  cases ch with
                  | false =>
                    simp only [Bool.false_eq_true, if_false] at h
                    have hc1 : c1 = c := (congrArg (fun x => x.2.1) h).symm
                    have he1 : e1 = [] ++ evs := (congrArg (fun x => x.2.2) h).symm
                    have hevnotin : Effect.event CloneSucceededPVC ∉ evs := by
                      intro hin
                      apply hev
                      rw [he1]
                      simpa using hin
                    obtain ⟨hevs, _, _, _, _, _, _, _, _, _⟩ :=
                      upod_first_facts (some sp) pvc evs false q hupd hevnotin hcloneOf
                    rw [hc1, h0, he1, hevs]
                    rfl
                  | true =>
                    simp only [if_true] at h
                    have hc1 : c1 = putPVC c q := (congrArg (fun x => x.2.1) h).symm
                    have he1 : e1 = [] ++ evs ++ [Effect.updatePVC q] :=
                      (congrArg (fun x => x.2.2) h).symm
                    have hevnotin : Effect.event CloneSucceededPVC ∉ evs := by
                      intro hin
                      apply hev
                      rw [he1]
                      simp [hin]
                    obtain ⟨hevs, hsucc, hch, hfin, hns, hnm2, huid, hlk, hcsne, hres⟩ :=
                      upod_first_facts (some sp) pvc evs true q hupd hevnotin hcloneOf
                    rw [hc1]
                    refine reconcile_effects_empty env (putPVC c q) ns nm q sp ?_ ?_ ?_ ?_ ?_
                    · exact getPVC_putPVC_self c ns nm pvc q hget hns hnm2
                    · rw [shouldReconcile_congr q pvc (hlk _ (by decide)) (hlk _ (by decide))]
                      exact hsrb
                    · rw [waitTarget_congr q pvc (hlk _ (by decide)) (hlk _ (by decide))]
                      exact hw
                    · rw [putPVC_pods]
                      rw [findCloneSourcePod_congr c.pods q pvc (hlk _ (by decide)) huid]
                      exact hfind
                    · refine upod_second_noop (some sp) q hfin ?_ hcsne hres
                      rw [podSucceededFromPVC_congr q pvc (hlk _ (by decide))]
                      exact hsucc
                | none =>
                  obtain ⟨pns, pnm, hp, hc1xeq, heffs1⟩ :=
                    reconcileSourcePod_none_spec env c pvc c1x effs1 hrsp
                  subst hc1xeq
                  subst heffs1
                  have hfilter : ((c.pods ++ [MakeCloneSourcePodSpec pns pvc]).filter
                      (matchesCloneSource pns pvc)) = [MakeCloneSourcePodSpec pns pvc] := by
                    rw [List.filter_append,
                      findCloneSourcePod_none_filter c.pods pvc pns pnm hp hfind]
                    simp [matchesCloneSource_make]
                  have hfind2 : findCloneSourcePod (c.pods ++ [MakeCloneSourcePodSpec pns pvc])
                      pvc = Except.ok (some (MakeCloneSourcePodSpec pns pvc)) :=
                    findCloneSourcePod_of_single _ pvc pns pnm _ hp hfilter
                  cases ch with
                  | false =>
                    simp only [Bool.false_eq_true, if_false] at h
                    have hc1 : c1 = { c with pods := c.pods ++ [MakeCloneSourcePodSpec pns pvc] } :=
                      (congrArg (fun x => x.2.1) h).symm
                    have he1 : e1 = [Effect.createPod (MakeCloneSourcePodSpec pns pvc)] ++ evs :=
                      (congrArg (fun x => x.2.2) h).symm
                    have hevnotin : Effect.event CloneSucceededPVC ∉ evs := by
                      intro hin
                      apply hev
                      rw [he1]
                      simp [hin]
                    obtain ⟨hevs, hsucc, hch, hfin, hns, hnm2, huid, hlk, _, _⟩ :=
                      upod_first_facts none pvc evs false q hupd hevnotin hcloneOf
                    have hq : q = pvc := by
                      by_contra hqne
                      rw [decide_eq_true hqne] at hch
                      exact Bool.false_ne_true hch
                    rw [hc1]
                    refine reconcile_effects_empty env _ ns nm pvc
                      (MakeCloneSourcePodSpec pns pvc) hget hsrb ?_ hfind2 ?_
                    · exact hw
                    · refine upod_second_noop _ pvc ?_ ?_ ?_ ?_
                      · rw [← hq]
                        exact hfin
                      · exact hsucc
                      · intro p hp2
                        cases hp2
                        intro hcc
                        simp [MakeCloneSourcePodSpec] at hcc
                      · intro p c0 t hp2 hcs2
                        cases hp2
                        simp [MakeCloneSourcePodSpec] at hcs2
                  | true =>
                    simp only [if_true] at h
                    have hc1 : c1 = putPVC { c with pods := c.pods ++ [MakeCloneSourcePodSpec pns pvc] } q :=
                      (congrArg (fun x => x.2.1) h).symm
                    have he1 : e1 = [Effect.createPod (MakeCloneSourcePodSpec pns pvc)] ++ evs
                        ++ [Effect.updatePVC q] :=
                      (congrArg (fun x => x.2.2) h).symm
                    have hevnotin : Effect.event CloneSucceededPVC ∉ evs := by
                      intro hin
                      apply hev
                      rw [he1]
                      simp [hin]
                    obtain ⟨hevs, hsucc, hch, hfin, hns, hnm2, huid, hlk, _, _⟩ :=
                      upod_first_facts none pvc evs true q hupd hevnotin hcloneOf
                    rw [hc1]
                    refine reconcile_effects_empty env _ ns nm q
                      (MakeCloneSourcePodSpec pns pvc) ?_ ?_ ?_ ?_ ?_
                    · exact getPVC_putPVC_self _ ns nm pvc q hget hns hnm2
                    · rw [shouldReconcile_congr q pvc (hlk _ (by decide)) (hlk _ (by decide))]
                      exact hsrb
                    · rw [waitTarget_congr q pvc (hlk _ (by decide)) (hlk _ (by decide))]
                      exact hw
                    · rw [putPVC_pods]
                      rw [findCloneSourcePod_congr _ q pvc (hlk _ (by decide)) huid]
                      exact hfind2
                    · refine upod_second_noop _ q hfin ?_ ?_ ?_
                      · rw [podSucceededFromPVC_congr q pvc (hlk _ (by decide))]
                        exact hsucc
                      · intro p hp2
                        cases hp2
                        intro hcc
                        simp [MakeCloneSourcePodSpec] at hcc
                      · intro p c0 t hp2 hcs2
                        cases hp2
                        simp [MakeCloneSourcePodSpec] at hcs2

/-! ## Claims C1 and C9: ordering of effects and the persist-on-change guard -/

/-- Every completed `updatePvcFromPod` result keeps the finalizer on the
returned PVC, preserves its namespace/name key, reports change exactly as
inequality with the snapshot, and emitted at most the `CloneSucceeded` event. -/
theorem upod_done_keys (sp : Option Pod) (pvc : PVC) (evs : List Effect)
    (ch : Bool) (q : PVC)
    (h : updatePvcFromPod sp pvc = UpdResult.done evs ch q) :
    hasFinalizer q cloneSourcePodFinalizer = true ∧
    q.ns = pvc.ns ∧ q.name = pvc.name ∧
    ch = decide (q ≠ pvc) ∧
    (evs = [] ∨ evs = [Effect.event CloneSucceededPVC]) := by
  have hps : podSucceededFromPVC (addFinalizer pvc cloneSourcePodFinalizer)
      = podSucceededFromPVC pvc :=
    podSucceededFromPVC_congr _ _ (by rw [addFinalizer_anns])
  unfold updatePvcFromPod at h
  simp only [hps, addFinalizer_anns] at h
  by_cases hC : (podSucceededFromPVC pvc && (lookupD pvc.anns AnnCloneOf != trueStr)) = true
  · simp only [if_pos hC] at h
    cases sp with
    | none =>
      injection h with h1 h2 h3
      subst h1
      subst h2
      subst h3
      exact ⟨hasFinalizer_addFinalizer pvc _, addFinalizer_ns pvc _,
        addFinalizer_name pvc _, rfl, Or.inr rfl⟩
    | some p =>
      rcases hpcs : p.containerStatuses with _ | ⟨_ | ⟨c0, t⟩⟩
      · simp only [hpcs] at h
        injection h with h1 h2 h3
        subst h1
        subst h2
        subst h3
        exact ⟨hasFinalizer_addFinalizer pvc _, addFinalizer_ns pvc _,
          addFinalizer_name pvc _, rfl, Or.inr rfl⟩
      · simp only [hpcs] at h
        exact absurd h (by simp)
      · simp only [hpcs] at h
        split at h
        · injection h with h1 h2 h3
          subst h1
          subst h2
          subst h3
          exact ⟨hasFinalizer_addFinalizer pvc _, addFinalizer_ns pvc _,
            addFinalizer_name pvc _, rfl, Or.inr rfl⟩
        · injection h with h1 h2 h3
          subst h1
          subst h2
          subst h3
          exact ⟨hasFinalizer_addFinalizer pvc _, addFinalizer_ns pvc _,
            addFinalizer_name pvc _, rfl, Or.inr rfl⟩
  · simp only [if_neg hC] at h
    cases sp with
    | none =>
      injection h with h1 h2 h3
      subst h1
      subst h2
      subst h3
      exact ⟨hasFinalizer_addFinalizer pvc _, addFinalizer_ns pvc _,
        addFinalizer_name pvc _, rfl, Or.inl rfl⟩
    | some p =>
      rcases hpcs : p.containerStatuses with _ | ⟨_ | ⟨c0, t⟩⟩
      · simp only [hpcs] at h
        injection h with h1 h2 h3
        subst h1
        subst h2
        subst h3
        exact ⟨hasFinalizer_addFinalizer pvc _, addFinalizer_ns pvc _,
          addFinalizer_name pvc _, rfl, Or.inl rfl⟩
      · simp only [hpcs] at h
        exact absurd h (by simp)
      · simp only [hpcs] at h
        split at h
        · injection h with h1 h2 h3
          subst h1
          subst h2
          subst h3
          exact ⟨hasFinalizer_addFinalizer pvc _, addFinalizer_ns pvc _,
            addFinalizer_name pvc _, rfl, Or.inl rfl⟩
        · injection h with h1 h2 h3
          subst h1
          subst h2
          subst h3
          exact ⟨hasFinalizer_addFinalizer pvc _, addFinalizer_ns pvc _,
            addFinalizer_name pvc _, rfl, Or.inl rfl⟩

/-- Claim C9, as amended: a `Reconcile` pass persists the PVC update only when
the mutated PVC differs from its deep-copied snapshot, and a second pass over
the state left by a pass that did not newly record clone success (no
`CloneSucceeded` event) issues no effects at all. -/
theorem claim_C9_amended (env : Env) (c : Cluster) (ns nm : String)
    (o1 : Outcome) (c1 : Cluster) (e1 : List Effect)
    (h : reconcile env c ns nm = (o1, c1, e1))
    (hev : Effect.event CloneSucceededPVC ∉ e1) :
    (reconcile env c1 ns nm).2.2 = [] ∧
    (∀ sp pvc evs ch q, updatePvcFromPod sp pvc = UpdResult.done evs ch q →
      (ch = true ↔ q ≠ pvc)) := by
  refine ⟨reconcile_stable env c ns nm o1 c1 e1 h hev, ?_⟩
  intro sp pvc evs ch q hu
  obtain ⟨_, _, _, hch, _⟩ := upod_done_keys sp pvc evs ch q hu
  rw [hch]
  constructor
  · exact fun hd => of_decide_eq_true hd
  · exact fun hne => decide_eq_true hne

theorem claim_C9_amended_witness :
    (reconcile fixEnv ((reconcile fixEnv fixCluster "prod" "dst").2.1) "prod" "dst").2.2
      = [] :=
  (claim_C9_amended fixEnv fixCluster "prod" "dst"
    (reconcile fixEnv fixCluster "prod" "dst").1
    (reconcile fixEnv fixCluster "prod" "dst").2.1
    (reconcile fixEnv fixCluster "prod" "dst").2.2 rfl (by decide)).1

/-- Claim C9 counterexample: starting from a cluster whose target PVC already
records a succeeded clone phase, the first pass sets `CloneOf` (emitting the
`CloneSucceeded` event) and the immediately following pass is not effect-free:
it deletes the source pod and persists the finalizer-stripped PVC. -/
theorem claim_C9_counterexample :
    Effect.deletePod "stage" "u1-source-pod" ∈
      (reconcile fixEnv ((reconcile fixEnv fixCluster9 "prod" "dst").2.1) "prod" "dst").2.2 ∧
    (reconcile fixEnv ((reconcile fixEnv fixCluster9 "prod" "dst").2.1) "prod" "dst").2.2
      ≠ [] := by
  constructor
  · decide
  · decide

/-- Claim C1 counterexample: on a fresh target PVC without the finalizer, the
pass issues the pod-creation effect first and only then the PVC update that
adds the finalizer — the finalizer is not on the stored PVC strictly before
the create is issued. -/
theorem claim_C1_counterexample :
    hasFinalizer fixTargetPVC cloneSourcePodFinalizer = false ∧
    getPVC fixCluster "prod" "dst" = some fixTargetPVC ∧
    (reconcile fixEnv fixCluster "prod" "dst").2.2
      = [Effect.createPod (MakeCloneSourcePodSpec "stage" fixTargetPVC),
         Effect.updatePVC (addFinalizer fixTargetPVC cloneSourcePodFinalizer)] := by
  refine ⟨?_, ?_, ?_⟩
  · decide
  · decide
  · decide

/-- Claim C1, as amended: whenever a `Reconcile` pass issues a pod-creation
effect, the pass also adds the clone-source finalizer in the same pass, so the
stored target PVC carries it by the end of that pass; and whenever a pass
issues a pod-deletion effect, the pass consists exactly of that deletion
followed by the update persisting the PVC with the finalizer removed. -/
theorem claim_C1_amended (env : Env) (c : Cluster) (ns nm : String)
    (o1 : Outcome) (c1 : Cluster) (e1 : List Effect)
    (h : reconcile env c ns nm = (o1, c1, e1)) :
    (∀ p, Effect.createPod p ∈ e1 →
      ∃ q, getPVC c1 ns nm = some q ∧
        hasFinalizer q cloneSourcePodFinalizer = true) ∧
    (∀ a b, Effect.deletePod a b ∈ e1 →
      ∃ q, e1 = [Effect.deletePod a b, Effect.updatePVC q] ∧
        hasFinalizer q cloneSourcePodFinalizer = false) := by
  unfold reconcile at h
  rcases hget : getPVC c ns nm with _ | pvc
  · simp only [hget] at h
    have he1 : e1 = [] := (congrArg (fun x => x.2.2) h).symm
    rw [he1]
    exact ⟨fun p hp => absurd hp (by simp), fun a b hab => absurd hab (by simp)⟩
  · simp only [hget] at h
    rcases hsrb : shouldReconcile pvc with _ | _
    · rw [if_pos (show (!shouldReconcile pvc) = true from by rw [hsrb]; rfl)] at h
      rcases hfb : hasFinalizer pvc cloneSourcePodFinalizer with _ | _
      · rw [if_neg (show ¬(hasFinalizer pvc cloneSourcePodFinalizer = true) from by
          rw [hfb]; simp)] at h
        have he1 : e1 = [] := (congrArg (fun x => x.2.2) h).symm
        rw [he1]
        exact ⟨fun p hp => absurd hp (by simp), fun a b hab => absurd hab (by simp)⟩
      · rw [if_pos hfb] at h
        rcases hcl : cleanup c pvc with e | ⟨c1x, effsx⟩
        · simp only [hcl] at h
          have he1 : e1 = [] := (congrArg (fun x => x.2.2) h).symm
          rw [he1]
          exact ⟨fun p hp => absurd hp (by simp), fun a b hab => absurd hab (by simp)⟩
        · simp only [hcl] at h
          have he1 : e1 = effsx := (congrArg (fun x => x.2.2) h).symm
          rcases cleanup_spec c pvc c1x effsx hcl with ⟨rfl, rfl⟩ |
            ⟨a2, b2, rfl, rfl⟩ | ⟨rfl, rfl⟩
          · rw [he1]
            exact ⟨fun p hp => absurd hp (by simp), fun a b hab => absurd hab (by simp)⟩
          · rw [he1]
            constructor
            · intro p hp
              exact absurd hp (by simp)
            · intro a b hab
              simp only [List.mem_cons, List.not_mem_nil, or_false] at hab
              rcases hab with h1 | h2
              · injection h1 with ha hb
                subst ha
                subst hb
                exact ⟨removeFinalizer pvc cloneSourcePodFinalizer, rfl,
                  hasFinalizer_removeFinalizer pvc _⟩
              · exact absurd h2 (by simp)
          · rw [he1]
            constructor
            · intro p hp
              exact absurd hp (by simp)
            · intro a b hab
              simp only [List.mem_cons, List.not_mem_nil, or_false] at hab
              exact absurd hab (by simp)
    · rw [if_neg (show ¬((!shouldReconcile pvc) = true) from by rw [hsrb]; simp)] at h
      rcases hw : waitTargetPodRunningOrSucceeded pvc with e | b
      · simp only [hw] at h
        have he1 : e1 = [] := (congrArg (fun x => x.2.2) h).symm
        rw [he1]
        exact ⟨fun p hp => absurd hp (by simp), fun a b hab => absurd hab (by simp)⟩
      · cases b
        · simp only [hw] at h
          have he1 : e1 = [] := (congrArg (fun x => x.2.2) h).symm
          rw [he1]
          exact ⟨fun p hp => absurd hp (by simp), fun a b hab => absurd hab (by simp)⟩
        · simp only [hw] at h
          rcases hfind : findCloneSourcePod c.pods pvc with e | spOpt
          · simp only [hfind] at h
            have he1 : e1 = [] := (congrArg (fun x => x.2.2) h).symm
            rw [he1]
            exact ⟨fun p hp => absurd hp (by simp), fun a b hab => absurd hab (by simp)⟩
          · simp only [hfind] at h
            rcases hrsp : reconcileSourcePod env c spOpt pvc with e | ⟨c1x, effs1⟩
            · simp only [hrsp] at h
              have he1 : e1 = [] := (congrArg (fun x => x.2.2) h).symm
              rw [he1]
              exact ⟨fun p hp => absurd hp (by simp), fun a b hab => absurd hab (by simp)⟩
            · simp only [hrsp] at h
              rcases hupd : updatePvcFromPod spOpt pvc with evs | ⟨evs, ch, q⟩
              · -- crashed pass: only the possible event was emitted
                simp only [hupd] at h
                obtain ⟨p0, rfl, hcs⟩ := upod_crashed_spec spOpt pvc evs hupd
                simp only [reconcileSourcePod] at hrsp
                have heffs1 : effs1 = [] :=
                  (congrArg (fun x => x.2) (Except.ok.inj hrsp)).symm
                have he1 : e1 = effs1 ++ evs := (congrArg (fun x => x.2.2) h).symm
                rcases upod_crashed_evs (some p0) pvc evs hupd with hvv | hvv <;>
                  rw [he1, heffs1, hvv] <;>
                  exact ⟨fun p hp => absurd hp (by simp),
                    fun a b hab => absurd hab (by simp)⟩
              · simp only [hupd] at h
                obtain ⟨hfinq, hns, hnm2, hch, hevs⟩ :=
                  upod_done_keys spOpt pvc evs ch q hupd
                cases spOpt with
                | some sp =>
                  simp only [reconcileSourcePod] at hrsp
                  have heffs1 : effs1 = [] :=
                    (congrArg (fun x => x.2) (Except.ok.inj hrsp)).symm
                  cases ch with
                  | false =>
                    simp only [Bool.false_eq_true, if_false] at h
                    have he1 : e1 = effs1 ++ evs := (congrArg (fun x => x.2.2) h).symm
                    rcases hevs with hvv | hvv <;>
                      rw [he1, heffs1, hvv] <;>
                      exact ⟨fun p hp => absurd hp (by simp),
                        fun a b hab => absurd hab (by simp)⟩
                  | true =>
                    simp only [if_true] at h
                    have he1 : e1 = effs1 ++ evs ++ [Effect.updatePVC q] :=
                      (congrArg (fun x => x.2.2) h).symm
                    rcases hevs with hvv | hvv <;>
                      rw [he1, heffs1, hvv] <;>
                      exact ⟨fun p hp => absurd hp (by simp),
                        fun a b hab => absurd hab (by simp)⟩
                | none =>
                  obtain ⟨nsx, nmx, hparse, hc1x, heffs1⟩ :=
                    reconcileSourcePod_none_spec env c pvc c1x effs1 hrsp
                  cases ch with
                  | false =>
                    simp only [Bool.false_eq_true, if_false] at h
                    have hc1 : c1 = c1x := (congrArg (fun x => x.2.1) h).symm
                    have he1 : e1 = effs1 ++ evs := (congrArg (fun x => x.2.2) h).symm
                    have hqp : q = pvc := not_not.mp (of_decide_eq_false hch.symm)
                    constructor
                    · intro p hp
                      refine ⟨pvc, ?_, ?_⟩
                      · rw [hc1, hc1x]
                        exact hget
                      · rw [← hqp]
                        exact hfinq
                    · intro a b hab
                      exfalso
                      rw [he1, heffs1] at hab
                      rcases hevs with hvv | hvv <;> rw [hvv] at hab <;> simp at hab
                  | true =>
                    simp only [if_true] at h
                    have hc1 : c1 = putPVC c1x q := (congrArg (fun x => x.2.1) h).symm
                    have he1 : e1 = effs1 ++ evs ++ [Effect.updatePVC q] :=
                      (congrArg (fun x => x.2.2) h).symm
                    constructor
                    · intro p hp
                      refine ⟨q, ?_, hfinq⟩
                      rw [hc1, hc1x]
                      exact getPVC_putPVC_self _ ns nm pvc q hget hns hnm2
                    · intro a b hab
                      exfalso
                      rw [he1, heffs1] at hab
                      rcases hevs with hvv | hvv <;> rw [hvv] at hab <;> simp at hab

theorem claim_C1_amended_witness :
    ∃ q, getPVC ((reconcile fixEnv fixCluster "prod" "dst").2.1) "prod" "dst" = some q ∧
      hasFinalizer q cloneSourcePodFinalizer = true :=
  (claim_C1_amended fixEnv fixCluster "prod" "dst"
    (reconcile fixEnv fixCluster "prod" "dst").1
    (reconcile fixEnv fixCluster "prod" "dst").2.1
    (reconcile fixEnv fixCluster "prod" "dst").2.2 rfl).1
    (MakeCloneSourcePodSpec "stage" fixTargetPVC) (by decide)
